import Mathlib

/-!
Verification development for the release-it release pipeline orchestrator.

The definitions below are a shallow embedding of the JavaScript sources:
`src/lib/npm.js` (the npm publish client), `src/lib/tasks.js` (the pipeline
orchestrator and release sequence) and `src/lib/errors.js` (the error
taxonomy).  External collaborators that are not part of the sources
(git/github/gitlab clients, prompt/spinner UIs, the version resolver, the
shell) are represented by oracles: values or functions supplied by an
environment record, one per observable outcome of a collaborator call.
Asynchronous JavaScript control flow is sequential here (the pipeline is
strictly ordered, §5 of the spec), promise rejection is `Except.error`.
-/

namespace Npm

/-- Truthiness of an optional JavaScript string: `undefined`/`null` and the
empty string are falsy, every other string is truthy. -/
def jsTruthyS : Option String → Bool
  | none => false
  | some s => !s.data.isEmpty

/-- JavaScript default-parameter semantics: the fallback applies only when
the supplied value is `undefined` (here: `none`). -/
def jsDefault (x d : Option String) : Option String :=
  match x with
  | some s => some s
  | none => d

/-- Splits a list of characters on a separator character; mirrors
`String.prototype.split` with a single-character separator. -/
def charListSplit (sep : Char) : List Char → List (List Char)
  | [] => [[]]
  | c :: rest =>
    let r := charListSplit sep rest
    if c == sep then [] :: r
    else
      match r with
      | [] => [[c]]
      | g :: gs => (c :: g) :: gs

/-- Whether the first list is a prefix of the second. -/
def startsWithChars : List Char → List Char → Bool
  | [], _ => true
  | _ :: _, [] => false
  | p :: ps, c :: cs => p == c && startsWithChars ps cs

/-- Whether `pat` occurs as a contiguous run inside the second list. -/
def hasSubChars (pat : List Char) : List Char → Bool
  | [] => startsWithChars pat []
  | c :: cs => startsWithChars pat (c :: cs) || hasSubChars pat cs

/-- A numeric semver identifier: digits only, no leading zero. -/
def validNumeric : List Char → Bool
  | [] => false
  | ['0'] => true
  | c :: cs => (c :: cs).all Char.isDigit && !(c == '0')

/-- A character allowed in a semver prerelease identifier. -/
def identChar (c : Char) : Bool := c.isAlphanum || c == '-'

/-- The `major.minor.patch` core of a semver string. -/
def validMainChars (cs : List Char) : Bool :=
  match charListSplit '.' cs with
  | [a, b, c] => validNumeric a && validNumeric b && validNumeric c
  | _ => false

/-- One dot-separated prerelease identifier: nonempty, alphanumerics and
hyphens, and no leading zero when fully numeric. -/
def validPreIdent (cs : List Char) : Bool :=
  !cs.isEmpty && cs.all identChar && (if cs.all Char.isDigit then validNumeric cs else true)

/-- Models the external `semver` library's `prerelease(version)` call used by
`npm.getTag` (`src/lib/npm.js` line 47): the list of dot-separated prerelease
identifiers of a valid semver version, or `none` when the version has no
prerelease segment or is not a valid semver version. -/
def semverPrerelease (v : String) : Option (List String) :=
  let chars := v.data.takeWhile (fun c => c != '+')
  let mainPart := chars.takeWhile (fun c => c != '-')
  match chars.dropWhile (fun c => c != '-') with
  | [] => none
  | _ :: pre =>
    if validMainChars mainPart && ((charListSplit '.' pre).all validPreIdent) then
      some ((charListSplit '.' pre).map String.mk)
    else none

/-- The default dist-tag (`src/lib/npm.js` line 8). -/
def DEFAULT_TAG : String := "latest"

/-- Embedding of `npm.getTag` (`src/lib/npm.js` lines 43-50): the effective
dist-tag is the supplied tag (defaulting to `latest`) unless the release is a
pre-release with a (truthy) version, in which case the first prerelease
component of the version is used, falling back to the tag when the version
has no prerelease components. -/
def getTag (tag : Option String) (version : Option String) (isPreRelease : Bool) : String :=
  let t := match tag with | some s => s | none => DEFAULT_TAG
  if !isPreRelease || !(jsTruthyS version) then t
  else
    match semverPrerelease (match version with | some s => s | none => "") with
    | some (c :: _) => c
    | some [] => t
    | none => t

/-- The npm client's resolved options (`src/lib/npm.js` lines 14-19, 52-53):
`Object.assign` of the `npm` options sub-object with the run flags. -/
structure Options where
  publish : Bool
  name : String
  publishPath : String
  access : Option String
  isPrivate : Bool
  tag : Option String
  otp : Option String
  isDryRun : Bool
deriving DecidableEq

/-- Whether the package name is scoped (`name.startsWith('@')`). -/
def nameIsScoped (n : String) : Bool :=
  match n.data with
  | c :: _ => c == '@'
  | [] => false

/-- The `npm publish` shell command assembled at `src/lib/npm.js` lines
55-58 and 64, including the blanks the template leaves for empty
arguments. -/
def buildCmd (o : Options) (resolvedTag : String) (otp : Option String) : String :=
  let accessArg :=
    if nameIsScoped o.name && jsTruthyS o.access then
      "--access " ++ (match o.access with | some a => a | none => "")
    else ""
  let otpArg :=
    if jsTruthyS otp then "--otp " ++ (match otp with | some x => x | none => "")
    else ""
  let dryRunArg := if o.isDryRun then "--dry-run" else ""
  "npm publish " ++ o.publishPath ++ " --tag " ++ resolvedTag ++ " " ++ accessArg ++ " "
    ++ otpArg ++ " " ++ dryRunArg

/-- The OTP rejection signature test `/one-time pass/.test(err)`
(`src/lib/npm.js` line 70). -/
def otpSignature (err : String) : Bool :=
  hasSubChars "one-time pass".data err.data

/-- The (effective) arguments of one recursive `publish` invocation. -/
structure PublishCall where
  tag : Option String
  version : Option String
  isPreRelease : Bool
  otp : Option String
deriving DecidableEq

/-- Decidable equality of promise results. -/
instance {ε α : Type} [DecidableEq ε] [DecidableEq α] : DecidableEq (Except ε α) := fun a b =>
  match a, b with
  | Except.ok x, Except.ok y =>
    if h : x = y then Decidable.isTrue (by simp [h]) else Decidable.isFalse (by simp [h])
  | Except.ok _, Except.error _ => Decidable.isFalse (by simp)
  | Except.error _, Except.ok _ => Decidable.isFalse (by simp)
  | Except.error x, Except.error y =>
    if h : x = y then Decidable.isTrue (by simp [h]) else Decidable.isFalse (by simp [h])

/-- Observable outcome of a `publish` invocation: the shell attempts made
(arguments and command line, in order), the warnings logged, whether
`this.isPublished` was set, and the resolution/rejection of the returned
promise. -/
structure PublishOutcome where
  attempts : List (PublishCall × String)
  warnings : List String
  isPublished : Bool
  result : Except String Unit
deriving DecidableEq

/-- Embedding of the body of `npm.publish` (`src/lib/npm.js` lines 52-80)
after parameter defaulting.  `shell` is the oracle for `this.shell.run`;
`hasCb` records whether an `otpCallback` was supplied, and `otps` models the
finite sequence of one-time passwords the interactive callback hands to the
retried task (an empty list models a callback that never supplies one). -/
def publishAux (o : Options) (shell : String → Except String Unit)
    (tag : Option String) (version : Option String) (isPre : Bool) :
    Option String → Bool → List String → PublishOutcome
  | otp, hasCb, otps =>
    if o.isPrivate then
      { attempts := [], warnings := ["Skip publish: package is private."],
        isPublished := false, result := Except.ok () }
    else
      let resolvedTag := getTag tag version isPre
      let cmd := buildCmd o resolvedTag otp
      let att : PublishCall × String := (⟨tag, version, isPre, otp⟩, cmd)
      match shell cmd with
      | Except.ok _ =>
        { attempts := [att], warnings := [], isPublished := true, result := Except.ok () }
      | Except.error err =>
        if otpSignature err then
          let ws := if otp.isSome then ["The provided OTP is incorrect or has expired."] else []
          if hasCb then
            match otps with
            | newOtp :: rest =>
              let r := publishAux o shell tag version isPre (some newOtp) true rest
              { attempts := att :: r.attempts, warnings := ws ++ r.warnings,
                isPublished := r.isPublished, result := r.result }
            | [] =>
              { attempts := [att], warnings := ws, isPublished := false,
                result := Except.error err }
          else
            { attempts := [att], warnings := ws, isPublished := false,
              result := Except.error err }
        else
          { attempts := [att], warnings := [], isPublished := false,
            result := Except.error err }

/-- Embedding of `npm.publish` (`src/lib/npm.js` lines 52-80) including the
JavaScript parameter defaults `tag = this.options.tag` and
`otp = this.options.otp`. -/
def publish (o : Options) (shell : String → Except String Unit)
    (tag : Option String) (version : Option String) (isPre : Bool)
    (otp : Option String) (cb : Option (List String)) : PublishOutcome :=
  publishAux o shell (jsDefault tag o.tag) version isPre (jsDefault otp o.otp)
    cb.isSome (match cb with | some l => l | none => [])

end Npm

namespace Tasks

/-- The error taxonomy of `src/lib/errors.js`: every constructor except
`other` corresponds to a subclass of `ReleaseItError`; `other` stands for
any unexpected exception thrown by a collaborator. -/
inductive ErrKind where
  | gitRepo
  | gitRemoteUrl
  | gitCleanWorkingDir
  | gitUpstream
  | distStageDir
  | token (tokenRef : String)
  | npmTimeout
  | npmAuth
  | invalidVersion
  | gitCommitErr
  | githubClient
  | other (msg : String)
deriving DecidableEq

/-- The `err instanceof ReleaseItError` test of `src/lib/tasks.js` line 206:
true for every error class exported by `src/lib/errors.js`. -/
def isReleaseItError : ErrKind → Bool
  | ErrKind.other _ => false
  | _ => true

/-- The fixed points at which a user-configured lifecycle hook script runs. -/
inductive HookPoint where
  | beforeStart
  | beforeBump
  | afterBump
  | beforeStage
  | afterRelease
deriving DecidableEq

/-- Which repository a release-sequence step acts on: the primary repository
or the distribution repository (`src/lib/tasks.js` lines 181-192). -/
inductive Target where
  | primary
  | dist
deriving DecidableEq

/-- One observable action of the pipeline, in the order it is performed.
Collaborator calls that only read state and produce no claim-relevant
observation (metrics, config snapshots, log previews) are not recorded. -/
inductive Event where
  | validateGit
  | validateGitDist
  | validateGitHub
  | validateGitLab
  | validateNpm
  | hookRun (t : Target) (p : HookPoint)
  | setLatestVersion
  | bumpCompute
  | genChangelog
  | setRuntimeChangelog
  | validateVersion
  | bumpFiles
  | gitStage
  | gitStageDir
  | prepareDist
  | gitStatus (t : Target)
  | gitCommit (t : Target)
  | gitTag (t : Target)
  | gitPush (t : Target)
  | ghNotes (t : Target)
  | ghRelease (t : Target)
  | ghUploadAssets (t : Target)
  | glNotes (t : Target)
  | glRelease (t : Target)
  | npmPublish (t : Target) (c : Npm.PublishCall) (cmd : String)
  | logGhUrl (t : Target)
  | logGlUrl (t : Target)
  | logNpmUrl (t : Target)
  | pushd (dir : String)
  | popd
  | rmStage (dir : String)
  | distInit
  | errorLogged (userFacing : Bool)
deriving DecidableEq

/-- A computation of the pipeline: the trace of events it performed and the
resolution or rejection of its promise. -/
structure Res (α : Type) where
  trace : List Event
  result : Except ErrKind α

/-- Sequencing of pipeline computations (`await` then continue): a rejected
first computation short-circuits, keeping its trace. -/
def Res.seq {α β : Type} (r : Res α) (f : α → Res β) : Res β :=
  match r.result with
  | Except.ok a => ⟨r.trace ++ (f a).trace, (f a).result⟩
  | Except.error e => ⟨r.trace, Except.error e⟩

/-- A collaborator call: emits its event and takes its outcome from the
environment oracle. -/
def call {α : Type} (e : Event) (r : Except ErrKind α) : Res α := ⟨[e], r⟩

/-- An immediately resolved computation with no observable action. -/
def rok {α : Type} (a : α) : Res α := ⟨[], Except.ok a⟩

/-- The `git` options sub-object (per-step enable flags). -/
structure GitOpts where
  commit : Bool
  tag : Bool
  push : Bool
deriving DecidableEq

/-- The `github` options sub-object. -/
structure GHOpts where
  release : Bool
  releaseNotes : Bool
  assets : Bool
deriving DecidableEq

/-- The `gitlab` options sub-object. -/
structure GLOpts where
  release : Bool
  releaseNotes : Bool
deriving DecidableEq

/-- The lifecycle hook scripts (`options.scripts`); `none` when the hook is
not configured. -/
structure Scripts where
  beforeStart : Option String
  beforeBump : Option String
  afterBump : Option String
  beforeStage : Option String
  afterRelease : Option String
deriving DecidableEq

/-- The `dist` options sub-object: the distribution repository (when
configured), its staging directory, and the independent option sub-objects
its release sequence uses (`src/lib/tasks.js` lines 183-189; the client
derivation lives in the absent `tasks-dist.js` and is modelled from the
spec, §4.5). -/
structure DistOpts where
  repo : Option String
  stageDir : String
  git : GitOpts
  github : GHOpts
  gitlab : GLOpts
  npm : Npm.Options
  scripts : Scripts
deriving DecidableEq

/-- The increment strategy.  Modelled from the spec: `version.js` is not in
the sources; §4.1 distinguishes fixed bump kinds / explicit literals from
commit-history recommendation strategies. -/
inductive Increment where
  | fixed (kind : String)
  | recommendation (strategy : String)
deriving DecidableEq

/-- Modelled from the spec: `v.isRecommendation(increment)` of the absent
`version.js` — true exactly for recommendation-based increments (§4.1). -/
def isRecommendation : Increment → Bool
  | Increment.recommendation _ => true
  | Increment.fixed _ => false

/-- The resolved run configuration consumed by `runTasks`. -/
structure Options where
  name : String
  isInteractive : Bool
  increment : Increment
  git : GitOpts
  github : GHOpts
  gitlab : GLOpts
  npm : Npm.Options
  dist : DistOpts
  scripts : Scripts

/-- Environment oracle for one release-sequence run: outcomes of the
collaborator calls the sequence makes, the interactive confirmations, and
the one-time passwords an interactive session would supply. -/
structure SeqEnv where
  gitStatus : Except ErrKind String
  gitCommit : Except ErrKind Unit
  gitTag : Except ErrKind Unit
  gitPush : Except ErrKind Unit
  ghNotes : Except ErrKind String
  ghRelease : Except ErrKind Bool
  ghUpload : Except ErrKind Bool
  glNotes : Except ErrKind String
  glRelease : Except ErrKind Unit
  publishShell : String → Except String Unit
  otps : List String
  confirm : String → Bool
  hook : HookPoint → Except ErrKind Unit

/-- Environment oracle for a whole pipeline run. -/
structure Env where
  gitValidate : Except ErrKind Unit
  gitDistValidate : Except ErrKind Unit
  ghValidate : Except ErrKind Unit
  glValidate : Except ErrKind Unit
  npmRegistryUp : Bool
  npmAuthed : Bool
  latestVersion : Except ErrKind String
  bumpResult : Option String
  changelogGen : Except ErrKind String
  interactiveVersion : Option String
  versionOk : String → Bool
  hook : HookPoint → Except ErrKind Unit
  bumpFiles : Except ErrKind Unit
  gitStage : Except ErrKind Unit
  gitStageDir : Except ErrKind Unit
  prepareDist : Except ErrKind Unit
  primarySeq : SeqEnv
  distInit : Except ErrKind Unit
  distSeq : SeqEnv
  rmStage : Except ErrKind Unit

/-- Embedding of `npm.validate` (`src/lib/npm.js` lines 21-29): nothing is
checked unless publishing is enabled; an unreachable registry raises the
timeout error, an unauthenticated user the auth error. -/
def npmValidate (o : Npm.Options) (registryUp authed : Bool) : Except ErrKind Unit :=
  if !o.publish then Except.ok ()
  else if !registryUp then Except.error ErrKind.npmTimeout
  else if !authed then Except.error ErrKind.npmAuth
  else Except.ok ()

/-- The mode-polymorphic step executor (`src/lib/tasks.js` line 136 and spec
§4.2; the prompt and spinner classes are absent from the sources, so their
`show` contract is modelled from the spec): a disabled step is skipped; in
interactive mode a step with a prompt identifier runs only when confirmed,
and a declined step is skipped without aborting. -/
def stepRun {α : Type} (isInteractive : Bool) (confirm : String → Bool)
    (enabled : Bool) (pid : Option String) (task : Res α) (dflt : α) : Res α :=
  if enabled then
    if isInteractive then
      match pid with
      | some p => if confirm p then task else rok dflt
      | none => task
    else task
  else rok dflt

/-- A lifecycle hook step (`spinner.show` with `enabled` = "is a script
configured", `forced`): runs the script exactly when one is configured. -/
def hookStep (t : Target) (p : HookPoint) (script : Option String)
    (out : Except ErrKind Unit) : Res Unit :=
  if Npm.jsTruthyS script then call (Event.hookRun t p) out else rok ()

end Tasks

namespace Tasks

/-- A log line or directory-stack action with no failure mode. -/
def emit (e : Event) : Res Unit := ⟨[e], Except.ok ()⟩

/-- The option sub-objects one release-sequence invocation closes over
(`src/lib/tasks.js` lines 138-143). -/
structure SeqOpts where
  git : GitOpts
  github : GHOpts
  gitlab : GLOpts
  npm : Npm.Options
  scripts : Scripts

/-- The success flags the clients of one release sequence own
(`isReleased` / `isPublished`). -/
structure SeqFlags where
  ghReleased : Bool
  glReleased : Bool
  npmPublished : Bool
deriving DecidableEq

/-- The GitHub part of the release sequence (`src/lib/tasks.js` lines
152-160): in interactive mode one combined step (prompt `ghRelease`) whose
task creates the release and, only when the release call resolved truthy,
uploads the assets; in unattended mode two independently toggled steps.
The value is the client's `isReleased` flag: set exactly when the release
call resolved. -/
def ghStep (t : Target) (isInteractive : Bool) (confirm : String → Bool)
    (gh : GHOpts) (rel : Except ErrKind Bool) (upl : Except ErrKind Bool) : Res Bool :=
  if isInteractive then
    stepRun true confirm gh.release (some "ghRelease")
      ((call (Event.ghRelease t) rel).seq (fun truthy =>
        if truthy then (call (Event.ghUploadAssets t) upl).seq (fun _ => rok true)
        else rok true))
      false
  else
    (stepRun false confirm gh.release none
        ((call (Event.ghRelease t) rel).seq (fun _ => rok true)) false).seq
      (fun released =>
        (stepRun false confirm gh.assets none
            ((call (Event.ghUploadAssets t) upl).seq (fun _ => rok ())) ()).seq
          (fun _ => rok released))

/-- The npm part of the release sequence (`src/lib/tasks.js` lines 168-170):
`npmClient.publish({ version, isPreRelease, otpCallback })`, where the OTP
callback exists exactly in interactive mode.  The value is the client's
`isPublished` flag; a rejected publish propagates as an unknown error. -/
def npmPublishTask (t : Target) (isInteractive : Bool) (npmO : Npm.Options)
    (shell : String → Except String Unit) (otps : List String)
    (version : String) (isPre : Bool) : Res Bool :=
  let po := Npm.publish npmO shell none (some version) isPre none
    (if isInteractive then some otps else none)
  ⟨po.attempts.map (fun a => Event.npmPublish t a.1 a.2),
    match po.result with
    | Except.ok _ => Except.ok po.isPublished
    | Except.error e => Except.error (ErrKind.other e)⟩

/-- The wrap-up log lines of the release sequence (`src/lib/tasks.js` lines
176-178): one URL line per client whose success flag is set. -/
def logUrls (t : Target) (f : SeqFlags) : Res Unit :=
  ((if f.ghReleased then emit (Event.logGhUrl t) else rok ()).seq fun _ =>
   (if f.glReleased then emit (Event.logGlUrl t) else rok ()).seq fun _ =>
   (if f.npmPublished then emit (Event.logNpmUrl t) else rok ()))

/-- The release sequence up to (excluding) the wrap-up URL lines
(`src/lib/tasks.js` lines 144-175), in source order: changeset preview,
commit/tag/push steps, GitHub notes preview and release/assets, GitLab notes
preview and release, npm publish, `afterRelease` hook. -/
def coreSeq (t : Target) (isInteractive : Bool) (so : SeqOpts) (se : SeqEnv)
    (version : String) (isPre : Bool) : Res SeqFlags :=
  ((if so.git.commit then (call (Event.gitStatus t) se.gitStatus).seq (fun _ => rok ())
    else rok ()).seq fun _ =>
   (stepRun isInteractive se.confirm so.git.commit (some "commit")
      (call (Event.gitCommit t) se.gitCommit) ()).seq fun _ =>
   (stepRun isInteractive se.confirm so.git.tag (some "tag")
      (call (Event.gitTag t) se.gitTag) ()).seq fun _ =>
   (stepRun isInteractive se.confirm so.git.push (some "push")
      (call (Event.gitPush t) se.gitPush) ()).seq fun _ =>
   (if so.github.release && so.github.releaseNotes then
      (call (Event.ghNotes t) se.ghNotes).seq (fun _ => rok ())
    else rok ()).seq fun _ =>
   (ghStep t isInteractive se.confirm so.github se.ghRelease se.ghUpload).seq fun ghReleased =>
   (if so.gitlab.release && so.gitlab.releaseNotes then
      (call (Event.glNotes t) se.glNotes).seq (fun _ => rok ())
    else rok ()).seq fun _ =>
   (stepRun isInteractive se.confirm so.gitlab.release (some "glRelease")
      ((call (Event.glRelease t) se.glRelease).seq (fun _ => rok true)) false).seq fun glReleased =>
   (stepRun isInteractive se.confirm so.npm.publish (some "publish")
      (npmPublishTask t isInteractive so.npm se.publishShell se.otps version isPre)
      false).seq fun npmPublished =>
   (hookStep t HookPoint.afterRelease so.scripts.afterRelease
      (se.hook HookPoint.afterRelease)).seq fun _ =>
   rok ⟨ghReleased, glReleased, npmPublished⟩)

/-- The full release sequence (`src/lib/tasks.js` lines 138-179), reused for
the primary and the distribution repository. -/
def releaseSeq (t : Target) (isInteractive : Bool) (so : SeqOpts) (se : SeqEnv)
    (version : String) (isPre : Bool) : Res SeqFlags :=
  (coreSeq t isInteractive so se version isPre).seq
    (fun f => (logUrls t f).seq (fun _ => rok f))

/-- Changelog generation followed by storing it into the runtime options
(`src/lib/tasks.js` lines 81-85 with 92-93 or 124-125). -/
def genChangelogStep (env : Env) : Res String :=
  (call Event.genChangelog env.changelogGen).seq (fun cl =>
    (emit Event.setRuntimeChangelog).seq (fun _ => rok cl))

/-- The validation-and-resolution phase (`src/lib/tasks.js` lines 56-109):
all collaborator validations in source order, the `beforeStart` hook, latest
version resolution, the version bump computation, non-deferred changelog
generation, the interactive version prompt, and version validation.  The
version resolver lives in the absent `version.js`; its outcomes are
modelled from the spec (§4.1) through the `latestVersion`, `bumpResult`,
`interactiveVersion` and `versionOk` oracles, with `InvalidVersionError`
raised at `v.validate()` when no acceptable version was produced.  Returns
the latest version, the validated next version, and the changelog when it
was generated in this phase. -/
def resolvePhase (o : Options) (env : Env) : Res (String × String × Option String) :=
  (call Event.validateGit env.gitValidate).seq fun _ =>
  (call Event.validateGitDist env.gitDistValidate).seq fun _ =>
  (call Event.validateGitHub env.ghValidate).seq fun _ =>
  (call Event.validateGitLab env.glValidate).seq fun _ =>
  (call Event.validateNpm (npmValidate o.npm env.npmRegistryUp env.npmAuthed)).seq fun _ =>
  (hookStep Target.primary HookPoint.beforeStart o.scripts.beforeStart
    (env.hook HookPoint.beforeStart)).seq fun _ =>
  (call Event.setLatestVersion env.latestVersion).seq fun latest =>
  (call Event.bumpCompute (Except.ok env.bumpResult)).seq fun v0 =>
  ((if isRecommendation o.increment then rok none
    else (genChangelogStep env).seq fun cl => rok (some cl)) : Res (Option String)).seq fun clPre =>
  (call Event.validateVersion
    (match (if o.isInteractive && v0.isNone then env.interactiveVersion else v0) with
     | none => Except.error ErrKind.invalidVersion
     | some ver =>
       if env.versionOk ver then Except.ok ver else Except.error ErrKind.invalidVersion)).seq
    fun version =>
  rok (latest, version, clPre)

/-- The bump phase (`src/lib/tasks.js` lines 118-120): `beforeBump` hook,
manifest rewrite, `afterBump` hook. -/
def bumpPhase (o : Options) (env : Env) : Res Unit :=
  (hookStep Target.primary HookPoint.beforeBump o.scripts.beforeBump
    (env.hook HookPoint.beforeBump)).seq fun _ =>
  (call Event.bumpFiles env.bumpFiles).seq fun _ =>
  hookStep Target.primary HookPoint.afterBump o.scripts.afterBump (env.hook HookPoint.afterBump)

/-- Deferred changelog generation (`src/lib/tasks.js` lines 122-126): runs
after the bump exactly when the increment is recommendation-based. -/
def deferPhase (o : Options) (env : Env) (clPre : Option String) : Res (Option String) :=
  if isRecommendation o.increment then (genChangelogStep env).seq fun cl => rok (some cl)
  else rok clPre

/-- The staging phase (`src/lib/tasks.js` lines 128-134): `beforeStage`
hook, staging, and distribution-repository staging when configured
(`prepareDistRepo` lives in the absent `tasks-dist.js`; modelled from the
spec, §4.5, as a single collaborator call). -/
def stagePhase (o : Options) (env : Env) : Res Unit :=
  (hookStep Target.primary HookPoint.beforeStage o.scripts.beforeStage
    (env.hook HookPoint.beforeStage)).seq fun _ =>
  (call Event.gitStage env.gitStage).seq fun _ =>
  (call Event.gitStageDir env.gitStageDir).seq fun _ =>
  (if o.dist.repo.isSome then call Event.prepareDist env.prepareDist else rok ())

/-- Whether the resolved version is a pre-release.  Modelled from the spec
(§4.1, `version.js` absent): a version with a prerelease segment. -/
def isPreOf (version : String) : Bool := (Npm.semverPrerelease version).isSome

/-- The distribution sub-release block (`src/lib/tasks.js` lines 183-192),
embedded exactly as written: push into the staging directory, initialize the
distribution clients, run the same release sequence against them, pop back,
remove the staging directory.  There is no try/finally in the source: a
rejection anywhere in the block short-circuits the remaining actions. -/
def distPhase (o : Options) (env : Env) (version : String) (isPre : Bool) : Res Unit :=
  if o.dist.repo.isSome then
    (emit (Event.pushd o.dist.stageDir)).seq fun _ =>
    (call Event.distInit env.distInit).seq fun _ =>
    (releaseSeq Target.dist o.isInteractive
      ⟨o.dist.git, o.dist.github, o.dist.gitlab, o.dist.npm, o.dist.scripts⟩
      env.distSeq version isPre).seq fun _ =>
    (emit Event.popd).seq fun _ =>
    call (Event.rmStage o.dist.stageDir) env.rmStage
  else rok ()

/-- The orchestrator's return value (`src/lib/tasks.js` lines 198-203). -/
structure PipelineResult where
  name : String
  changelog : Option String
  latestVersion : String
  version : String
deriving DecidableEq

/-- The body of `runTasks` (`src/lib/tasks.js` lines 31-203): the phases in
source order. -/
def runTasksBody (o : Options) (env : Env) : Res PipelineResult :=
  (resolvePhase o env).seq fun rv =>
  (bumpPhase o env).seq fun _ =>
  (deferPhase o env rv.2.2).seq fun changelog =>
  (stagePhase o env).seq fun _ =>
  (releaseSeq Target.primary o.isInteractive ⟨o.git, o.github, o.gitlab, o.npm, o.scripts⟩
    env.primarySeq rv.2.1 (isPreOf rv.2.1)).seq fun _ =>
  (distPhase o env rv.2.1 (isPreOf rv.2.1)).seq fun _ =>
  rok ⟨o.name, changelog, rv.1, rv.2.1⟩

/-- Embedding of `runTasks` (`src/lib/tasks.js` lines 21-214) including the
top-level catch (lines 204-213): a known error (`instanceof ReleaseItError`)
is logged as a user-facing message, any other error as a raw diagnostic, and
the error is re-thrown either way. -/
def runTasks (o : Options) (env : Env) : Res PipelineResult :=
  match (runTasksBody o env).result with
  | Except.ok _ => runTasksBody o env
  | Except.error e =>
    ⟨(runTasksBody o env).trace ++ [Event.errorLogged (isReleaseItError e)], Except.error e⟩

end Tasks

namespace Tasks

/-- Collaborator validation events (the precondition checks of
`src/lib/tasks.js` lines 56-60 and the version validation of line 107). -/
def isValidationEv : Event → Bool
  | Event.validateGit => true
  | Event.validateGitDist => true
  | Event.validateGitHub => true
  | Event.validateGitLab => true
  | Event.validateNpm => true
  | Event.validateVersion => true
  | _ => false

/-- Mutating steps: manifest bump, staging, commit, tag, push, remote
releases and asset uploads, package publish, and the distribution-repository
mutations. -/
def isMutationEv : Event → Bool
  | Event.bumpFiles => true
  | Event.gitStage => true
  | Event.gitStageDir => true
  | Event.prepareDist => true
  | Event.gitCommit _ => true
  | Event.gitTag _ => true
  | Event.gitPush _ => true
  | Event.ghRelease _ => true
  | Event.ghUploadAssets _ => true
  | Event.glRelease _ => true
  | Event.npmPublish _ _ _ => true
  | Event.distInit => true
  | Event.rmStage _ => true
  | _ => false

/-- Changelog generation events. -/
def isGenEv : Event → Bool
  | Event.genChangelog => true
  | _ => false

/-- The bump step and the `afterBump` hook of the primary repository. -/
def isBumpStepEv : Event → Bool
  | Event.bumpFiles => true
  | Event.hookRun t pt => t == Target.primary && pt == HookPoint.afterBump
  | _ => false

/-- Storing the changelog into the runtime options. -/
def isSetRtEv : Event → Bool
  | Event.setRuntimeChangelog => true
  | _ => false

/-- Pushing into the distribution staging directory. -/
def isPushdEv : Event → Bool
  | Event.pushd _ => true
  | _ => false

/-- Popping back to the original working directory. -/
def isPopdEv : Event → Bool
  | Event.popd => true
  | _ => false

/-- Events of the release sequence proper (`src/lib/tasks.js` lines
144-175), excluding the wrap-up URL log lines, for a given target. -/
def isCoreEv (t : Target) : Event → Bool
  | Event.gitStatus u => u == t
  | Event.gitCommit u => u == t
  | Event.gitTag u => u == t
  | Event.gitPush u => u == t
  | Event.ghNotes u => u == t
  | Event.ghRelease u => u == t
  | Event.ghUploadAssets u => u == t
  | Event.glNotes u => u == t
  | Event.glRelease u => u == t
  | Event.npmPublish u _ _ => u == t
  | Event.hookRun u pt => u == t && pt == HookPoint.afterRelease
  | _ => false

/-- All events one release-sequence invocation can perform. -/
def isSeqEv (t : Target) (e : Event) : Bool :=
  isCoreEv t e ||
    (match e with
     | Event.logGhUrl u => u == t
     | Event.logGlUrl u => u == t
     | Event.logNpmUrl u => u == t
     | _ => false)

/-- Release-sequence events of either target. -/
def isSeqEvAny (e : Event) : Bool :=
  isSeqEv Target.primary e || isSeqEv Target.dist e

/-- Events of the distribution sub-release of the primary repository's
release, i.e. of the sub-release itself (initialization plus its release
sequence), excluding the surrounding directory-stack bookkeeping. -/
def isDistReleaseEv (e : Event) : Bool :=
  match e with
  | Event.distInit => true
  | _ => isSeqEv Target.dist e

/-- Events the distribution block (`src/lib/tasks.js` lines 183-192) can
perform. -/
def isDistBlockEv (e : Event) : Bool :=
  match e with
  | Event.pushd _ => true
  | Event.popd => true
  | Event.rmStage _ => true
  | _ => isDistReleaseEv e

/-- A publish-client invocation, or its package-URL line, on the primary
repository's npm client. -/
def isNpmPrimaryPubEv : Event → Bool
  | Event.npmPublish Target.primary _ _ => true
  | _ => false

/-- Events of the validation-and-resolution phase. -/
def isResolveEv : Event → Bool
  | Event.validateGit => true
  | Event.validateGitDist => true
  | Event.validateGitHub => true
  | Event.validateGitLab => true
  | Event.validateNpm => true
  | Event.hookRun t pt => t == Target.primary && pt == HookPoint.beforeStart
  | Event.setLatestVersion => true
  | Event.bumpCompute => true
  | Event.genChangelog => true
  | Event.setRuntimeChangelog => true
  | Event.validateVersion => true
  | _ => false

/-- Events of the bump phase. -/
def isBumpPhaseEv : Event → Bool
  | Event.hookRun t pt =>
    t == Target.primary && (pt == HookPoint.beforeBump || pt == HookPoint.afterBump)
  | Event.bumpFiles => true
  | _ => false

/-- Events of the deferred changelog phase. -/
def isDeferPhaseEv : Event → Bool
  | Event.genChangelog => true
  | Event.setRuntimeChangelog => true
  | _ => false

/-- Events of the staging phase. -/
def isStagePhaseEv : Event → Bool
  | Event.hookRun t pt => t == Target.primary && pt == HookPoint.beforeStage
  | Event.gitStage => true
  | Event.gitStageDir => true
  | Event.prepareDist => true
  | _ => false

/-- Decides that every `p`-event of the list occurs strictly before every
`q`-event: scanning left to right, no `p`-event may sit at or after a
`q`-event. -/
def allBefore (p q : Event → Bool) : List Event → Bool
  | [] => true
  | e :: rest =>
    (if q e then !p e && rest.all (fun x => !p x) else true) && allBefore p q rest

/-- Every event of the computation's trace satisfies `p`. -/
def AllP (p : Event → Bool) {α : Type} (r : Res α) : Prop := r.trace.all p = true

end Tasks

def npmOnW : Npm.Options :=
  { publish := true, name := "pkg", publishPath := ".", access := none,
    isPrivate := false, tag := none, otp := none, isDryRun := false }

def npmOffW : Npm.Options := { npmOnW with publish := false }

def npmPrivW : Npm.Options := { npmOnW with isPrivate := true }

def scrNoneW : Tasks.Scripts := ⟨none, none, none, none, none⟩

def seqEnvOkW : Tasks.SeqEnv :=
  { gitStatus := Except.ok "M file", gitCommit := Except.ok (), gitTag := Except.ok (),
    gitPush := Except.ok (), ghNotes := Except.ok "notes", ghRelease := Except.ok true,
    ghUpload := Except.ok true, glNotes := Except.ok "notes", glRelease := Except.ok (),
    publishShell := fun _ => Except.ok (), otps := [], confirm := fun _ => true,
    hook := fun _ => Except.ok () }

def envOkW : Tasks.Env :=
  { gitValidate := Except.ok (), gitDistValidate := Except.ok (),
    ghValidate := Except.ok (), glValidate := Except.ok (), npmRegistryUp := true,
    npmAuthed := true, latestVersion := Except.ok "1.0.0", bumpResult := some "1.0.1",
    changelogGen := Except.ok "* changes", interactiveVersion := none,
    versionOk := fun _ => true, hook := fun _ => Except.ok (), bumpFiles := Except.ok (),
    gitStage := Except.ok (), gitStageDir := Except.ok (), prepareDist := Except.ok (),
    primarySeq := seqEnvOkW, distInit := Except.ok (), distSeq := seqEnvOkW,
    rmStage := Except.ok () }

def optsBaseW : Tasks.Options :=
  { name := "pkg", isInteractive := false, increment := Tasks.Increment.fixed "patch",
    git := ⟨true, true, true⟩, github := ⟨true, true, true⟩, gitlab := ⟨false, false⟩,
    npm := npmOnW,
    dist := { repo := none, stageDir := ".stage", git := ⟨true, true, true⟩,
              github := ⟨false, false, false⟩, gitlab := ⟨false, false⟩, npm := npmOffW,
              scripts := scrNoneW },
    scripts := scrNoneW }

def optsDistW : Tasks.Options :=
  { optsBaseW with dist := { optsBaseW.dist with repo := some "repo#dist" } }

def optsRecW : Tasks.Options :=
  { optsBaseW with increment := Tasks.Increment.recommendation "conventional:angular" }

def envDistFailW : Tasks.Env :=
  { envOkW with
    distSeq := { seqEnvOkW with gitCommit := Except.error (Tasks.ErrKind.other "boom") } }

def envC2W : Tasks.Env :=
  { envOkW with
    gitValidate := Except.error Tasks.ErrKind.gitCleanWorkingDir
    ghValidate := Except.error (Tasks.ErrKind.token "GITHUB_TOKEN")
    bumpResult := none }

namespace Tasks

/-- Publish-client invocation events (any target). -/
def isNpmPubAnyEv : Event → Bool
  | Event.npmPublish _ _ _ => true
  | _ => false

end Tasks

def optsNoPubW : Tasks.Options := { optsBaseW with npm := npmOffW }

def soPubW : Tasks.SeqOpts :=
  ⟨⟨true, true, true⟩, ⟨true, true, true⟩, ⟨false, false⟩, npmOnW, scrNoneW⟩

def soNoPubW : Tasks.SeqOpts :=
  ⟨⟨true, true, true⟩, ⟨true, true, true⟩, ⟨false, false⟩, npmOffW, scrNoneW⟩

def shellOtpW : String → Except String Unit := fun c =>
  if c = "npm publish . --tag latest  --otp 123456 " then Except.ok ()
  else Except.error "one-time password required"

namespace Tasks

/-- Decomposition of a sequenced trace: the continuation's contribution is
empty (on rejection) or the continuation's own trace. -/
theorem seq_trace_decomp {α β : Type} (r : Res α) (f : α → Res β) :
    ∃ t, (r.seq f).trace = r.trace ++ t ∧
      (t = [] ∨ ∃ a, r.result = Except.ok a ∧ t = (f a).trace) := by
  cases hr : r.result with
  | ok a => exact ⟨(f a).trace, by simp [Res.seq, hr], Or.inr ⟨a, rfl, rfl⟩⟩
  | error e => exact ⟨[], by simp [Res.seq, hr], Or.inl rfl⟩

/-- A resolved sequence resolves both halves. -/
theorem seq_ok_elim {α β : Type} {C : Prop} {r : Res α} {f : α → Res β} {b : β}
    (h : (r.seq f).result = Except.ok b)
    (H : ∀ a, r.result = Except.ok a → (f a).result = Except.ok b → C) : C := by
  cases hr : r.result with
  | ok a =>
    refine H a hr ?_
    simpa [Res.seq, hr] using h
  | error e =>
    rw [Res.seq] at h
    simp [hr] at h

/-- Membership in a sequenced trace comes from one of the halves. -/
theorem mem_seq {α β : Type} {x : Event} {r : Res α} {f : α → Res β}
    (h : x ∈ (r.seq f).trace) :
    x ∈ r.trace ∨ ∃ a, r.result = Except.ok a ∧ x ∈ (f a).trace := by
  cases hr : r.result with
  | ok a =>
    rcases List.mem_append.mp (by simpa [Res.seq, hr] using h) with h1 | h2
    · exact Or.inl h1
    · exact Or.inr ⟨a, rfl, h2⟩
  | error e => exact Or.inl (by simpa [Res.seq, hr] using h)

theorem allP_seq {p : Event → Bool} {α β : Type} {r : Res α} {f : α → Res β}
    (h : AllP p r) (hf : ∀ a, AllP p (f a)) : AllP p (r.seq f) := by
  unfold AllP at *
  cases hr : r.result with
  | ok a => simp [Res.seq, hr, List.all_append, h, hf a]
  | error e => simp [Res.seq, hr, h]

theorem allP_call {p : Event → Bool} {α : Type} {e : Event} {r : Except ErrKind α}
    (h : p e = true) : AllP p (call e r) := by
  unfold AllP call
  simp [h]

theorem allP_rok {p : Event → Bool} {α : Type} (a : α) : AllP p (rok a) := by
  unfold AllP rok
  simp

theorem allP_emit {p : Event → Bool} {e : Event} (h : p e = true) : AllP p (emit e) := by
  unfold AllP emit
  simp [h]

theorem allP_ite {p : Event → Bool} {α : Type} {b : Prop} [Decidable b] {r s : Res α}
    (hr : AllP p r) (hs : AllP p s) : AllP p (if b then r else s) := by
  by_cases hb : b
  · simpa [hb] using hr
  · simpa [hb] using hs

theorem allP_stepRun {p : Event → Bool} {α : Type} {inter : Bool} {confirm : String → Bool}
    {en : Bool} {pid : Option String} {task : Res α} {d : α}
    (h : AllP p task) : AllP p (stepRun inter confirm en pid task d) := by
  unfold stepRun
  cases en with
  | false => simpa using allP_rok (p := p) d
  | true =>
    cases inter with
    | false => simpa using h
    | true =>
      cases pid with
      | none => simpa using h
      | some s =>
        by_cases hc : confirm s = true
        · simpa [hc] using h
        · simp only [Bool.not_eq_true] at hc
          simpa [hc] using allP_rok (p := p) d

theorem allP_hookStep {p : Event → Bool} {t : Target} {pt : HookPoint}
    {script : Option String} {out : Except ErrKind Unit}
    (h : p (Event.hookRun t pt) = true) : AllP p (hookStep t pt script out) := by
  unfold hookStep
  by_cases hs : Npm.jsTruthyS script = true
  · simpa [hs] using allP_call (r := out) h
  · simp only [Bool.not_eq_true] at hs
    simpa [hs] using allP_rok (p := p) ()

theorem allP_mono {p q : Event → Bool} {α : Type} {r : Res α}
    (h : AllP q r) (himp : ∀ e, q e = true → p e = true) : AllP p r := by
  unfold AllP at *
  exact List.all_eq_true.mpr fun e he => himp e (List.all_eq_true.mp h e he)

theorem allP_npmPublishTask {p : Event → Bool} {t : Target} {inter : Bool}
    {npmO : Npm.Options} {shell : String → Except String Unit} {otps : List String}
    {version : String} {isPre : Bool}
    (h : ∀ c cmd, p (Event.npmPublish t c cmd) = true) :
    AllP p (npmPublishTask t inter npmO shell otps version isPre) := by
  unfold AllP npmPublishTask
  refine List.all_eq_true.mpr ?_
  intro e he
  simp only [List.mem_map] at he
  obtain ⟨a, _, rfl⟩ := he
  exact h a.1 a.2

theorem allP_ghStep {p : Event → Bool} {t : Target} {inter : Bool}
    {confirm : String → Bool} {gh : GHOpts} {rel upl : Except ErrKind Bool}
    (h1 : p (Event.ghRelease t) = true) (h2 : p (Event.ghUploadAssets t) = true) :
    AllP p (ghStep t inter confirm gh rel upl) := by
  unfold ghStep
  cases inter with
  | true =>
    rw [if_pos rfl]
    refine allP_stepRun ?_
    refine allP_seq (allP_call h1) ?_
    intro truthy
    exact allP_ite (allP_seq (allP_call h2) fun _ => allP_rok _) (allP_rok _)
  | false =>
    rw [if_neg Bool.false_ne_true]
    refine allP_seq (allP_stepRun (allP_seq (allP_call h1) fun _ => allP_rok _)) ?_
    intro released
    exact allP_seq (allP_stepRun (allP_seq (allP_call h2) fun _ => allP_rok _))
      fun _ => allP_rok _

end Tasks

namespace Tasks

theorem allP_genChangelogStep {p : Event → Bool} {env : Env}
    (h1 : p Event.genChangelog = true) (h2 : p Event.setRuntimeChangelog = true) :
    AllP p (genChangelogStep env) :=
  allP_seq (allP_call h1) fun _ => allP_seq (allP_emit h2) fun _ => allP_rok _

theorem allP_coreSeq (t : Target) (inter : Bool) (so : SeqOpts) (se : SeqEnv)
    (v : String) (pre : Bool) : AllP (isCoreEv t) (coreSeq t inter so se v pre) := by
  unfold coreSeq
  refine allP_seq (allP_ite (allP_seq (allP_call (by simp [isCoreEv]))
    fun _ => allP_rok _) (allP_rok _)) fun _ => ?_
  refine allP_seq (allP_stepRun (allP_call (by simp [isCoreEv]))) fun _ => ?_
  refine allP_seq (allP_stepRun (allP_call (by simp [isCoreEv]))) fun _ => ?_
  refine allP_seq (allP_stepRun (allP_call (by simp [isCoreEv]))) fun _ => ?_
  refine allP_seq (allP_ite (allP_seq (allP_call (by simp [isCoreEv]))
    fun _ => allP_rok _) (allP_rok _)) fun _ => ?_
  refine allP_seq (allP_ghStep (by simp [isCoreEv]) (by simp [isCoreEv])) fun _ => ?_
  refine allP_seq (allP_ite (allP_seq (allP_call (by simp [isCoreEv]))
    fun _ => allP_rok _) (allP_rok _)) fun _ => ?_
  refine allP_seq (allP_stepRun (allP_seq (allP_call (by simp [isCoreEv]))
    fun _ => allP_rok _)) fun _ => ?_
  refine allP_seq (allP_stepRun (allP_npmPublishTask (by simp [isCoreEv]))) fun _ => ?_
  refine allP_seq (allP_hookStep (by simp [isCoreEv])) fun _ => ?_
  exact allP_rok _

theorem allP_logUrls (t : Target) (f : SeqFlags) : AllP (isSeqEv t) (logUrls t f) := by
  unfold logUrls
  refine allP_seq (allP_ite (allP_emit (by simp [isSeqEv, isCoreEv])) (allP_rok _))
    fun _ => ?_
  refine allP_seq (allP_ite (allP_emit (by simp [isSeqEv, isCoreEv])) (allP_rok _))
    fun _ => ?_
  exact allP_ite (allP_emit (by simp [isSeqEv, isCoreEv])) (allP_rok _)

theorem allP_releaseSeq (t : Target) (inter : Bool) (so : SeqOpts) (se : SeqEnv)
    (v : String) (pre : Bool) : AllP (isSeqEv t) (releaseSeq t inter so se v pre) := by
  unfold releaseSeq
  refine allP_seq (allP_mono (allP_coreSeq t inter so se v pre) ?_) fun f => ?_
  · intro e he
    unfold isSeqEv
    simp [he]
  · exact allP_seq (allP_logUrls t f) fun _ => allP_rok _

theorem allP_resolvePhase (o : Options) (env : Env) :
    AllP isResolveEv (resolvePhase o env) := by
  unfold resolvePhase
  refine allP_seq (allP_call (by simp [isResolveEv])) fun _ => ?_
  refine allP_seq (allP_call (by simp [isResolveEv])) fun _ => ?_
  refine allP_seq (allP_call (by simp [isResolveEv])) fun _ => ?_
  refine allP_seq (allP_call (by simp [isResolveEv])) fun _ => ?_
  refine allP_seq (allP_call (by simp [isResolveEv])) fun _ => ?_
  refine allP_seq (allP_hookStep (by simp [isResolveEv])) fun _ => ?_
  refine allP_seq (allP_call (by simp [isResolveEv])) fun latest => ?_
  refine allP_seq (allP_call (by simp [isResolveEv])) fun v0 => ?_
  refine allP_seq (allP_ite (allP_rok _) (allP_seq
    (allP_genChangelogStep (by simp [isResolveEv]) (by simp [isResolveEv]))
    fun cl => allP_rok _)) fun clPre => ?_
  refine allP_seq (allP_call (by simp [isResolveEv])) fun version => ?_
  exact allP_rok _

theorem allP_bumpPhase (o : Options) (env : Env) : AllP isBumpPhaseEv (bumpPhase o env) := by
  unfold bumpPhase
  refine allP_seq (allP_hookStep (by simp [isBumpPhaseEv])) fun _ => ?_
  refine allP_seq (allP_call (by simp [isBumpPhaseEv])) fun _ => ?_
  exact allP_hookStep (by simp [isBumpPhaseEv])

theorem allP_deferPhase (o : Options) (env : Env) (cl : Option String) :
    AllP isDeferPhaseEv (deferPhase o env cl) := by
  unfold deferPhase
  refine allP_ite ?_ (allP_rok _)
  exact allP_seq (allP_genChangelogStep (by simp [isDeferPhaseEv])
    (by simp [isDeferPhaseEv])) fun _ => allP_rok _

theorem allP_stagePhase (o : Options) (env : Env) : AllP isStagePhaseEv (stagePhase o env) := by
  unfold stagePhase
  refine allP_seq (allP_hookStep (by simp [isStagePhaseEv])) fun _ => ?_
  refine allP_seq (allP_call (by simp [isStagePhaseEv])) fun _ => ?_
  refine allP_seq (allP_call (by simp [isStagePhaseEv])) fun _ => ?_
  exact allP_ite (allP_call (by simp [isStagePhaseEv])) (allP_rok _)

theorem allP_distPhase (o : Options) (env : Env) (v : String) (pre : Bool) :
    AllP isDistBlockEv (distPhase o env v pre) := by
  unfold distPhase
  refine allP_ite ?_ (allP_rok _)
  refine allP_seq (allP_emit (by simp [isDistBlockEv])) fun _ => ?_
  refine allP_seq (allP_call (by simp [isDistBlockEv, isDistReleaseEv])) fun _ => ?_
  refine allP_seq (allP_mono (allP_releaseSeq Target.dist o.isInteractive _ env.distSeq v pre)
    ?_) fun _ => ?_
  · intro e he
    cases e <;> simp_all [isDistBlockEv, isDistReleaseEv]
  refine allP_seq (allP_emit (by simp [isDistBlockEv])) fun _ => ?_
  exact allP_call (by simp [isDistBlockEv])

end Tasks

namespace Tasks

theorem allBefore_of_all_not_p {p q : Event → Bool} {l : List Event}
    (h : l.all (fun e => !p e) = true) : allBefore p q l = true := by
  induction l with
  | nil => rfl
  | cons e rest ih =>
    simp only [List.all_cons, Bool.and_eq_true] at h
    unfold allBefore
    rw [Bool.and_eq_true]
    refine ⟨?_, ih h.2⟩
    by_cases hq : q e = true
    · simp [hq, h.1, h.2]
    · simp only [Bool.not_eq_true] at hq
      simp [hq]

theorem allBefore_append {p q : Event → Bool} {l₁ l₂ : List Event}
    (h₁ : l₁.all (fun e => !q e) = true) (h₂ : l₂.all (fun e => !p e) = true) :
    allBefore p q (l₁ ++ l₂) = true := by
  induction l₁ with
  | nil => simpa using allBefore_of_all_not_p h₂
  | cons e rest ih =>
    simp only [List.all_cons, Bool.and_eq_true] at h₁
    simp only [List.cons_append]
    unfold allBefore
    rw [Bool.and_eq_true]
    refine ⟨?_, ih h₁.2⟩
    have hqe : q e = false := by simpa using h₁.1
    simp [hqe]

theorem stepRun_disabled {α : Type} (inter : Bool) (confirm : String → Bool)
    (pid : Option String) (task : Res α) (d : α) :
    stepRun inter confirm false pid task d = rok d := by
  unfold stepRun
  simp

theorem deferPhase_nonrec (o : Options) (env : Env) (cl : Option String)
    (h : isRecommendation o.increment = false) : deferPhase o env cl = rok cl := by
  unfold deferPhase
  simp [h]

end Tasks

namespace Tasks

theorem runTasks_wrap (o : Options) (env : Env) :
    ∃ t7, (runTasks o env).trace = (runTasksBody o env).trace ++ t7
      ∧ (t7 = [] ∨ ∃ b, t7 = [Event.errorLogged b]) := by
  cases hb : (runTasksBody o env).result with
  | ok r => exact ⟨[], by simp [runTasks, hb], Or.inl rfl⟩
  | error e =>
    exact ⟨[Event.errorLogged (isReleaseItError e)], by simp [runTasks, hb], Or.inr ⟨_, rfl⟩⟩

set_option maxHeartbeats 1000000 in
theorem runTasks_trace_decomp (o : Options) (env : Env) :
    ∃ t2 t3 t4 t5 t6 t7,
      (runTasks o env).trace =
        (resolvePhase o env).trace ++ (t2 ++ (t3 ++ (t4 ++ (t5 ++ (t6 ++ t7)))))
      ∧ (t2 = [] ∨ t2 = (bumpPhase o env).trace)
      ∧ (t3 = [] ∨ ∃ cl, t3 = (deferPhase o env cl).trace)
      ∧ (t4 = [] ∨ t4 = (stagePhase o env).trace)
      ∧ (t5 = [] ∨ ∃ v pre, t5 = (releaseSeq Target.primary o.isInteractive
          ⟨o.git, o.github, o.gitlab, o.npm, o.scripts⟩ env.primarySeq v pre).trace)
      ∧ (t6 = [] ∨ ∃ v pre, t6 = (distPhase o env v pre).trace)
      ∧ (t7 = [] ∨ ∃ b, t7 = [Event.errorLogged b]) := by
  obtain ⟨t7, hw, hc7⟩ := runTasks_wrap o env
  obtain ⟨r2, h2, hc2⟩ := seq_trace_decomp (resolvePhase o env) (fun rv =>
    (bumpPhase o env).seq fun _ =>
    (deferPhase o env rv.2.2).seq fun changelog =>
    (stagePhase o env).seq fun _ =>
    (releaseSeq Target.primary o.isInteractive ⟨o.git, o.github, o.gitlab, o.npm, o.scripts⟩
      env.primarySeq rv.2.1 (isPreOf rv.2.1)).seq fun _ =>
    (distPhase o env rv.2.1 (isPreOf rv.2.1)).seq fun _ =>
    rok (⟨o.name, changelog, rv.1, rv.2.1⟩ : PipelineResult))
  have hb2 : (runTasksBody o env).trace = (resolvePhase o env).trace ++ r2 := h2
  rcases hc2 with h | ⟨rv, hok2, heq2⟩
  · subst h
    exact ⟨[], [], [], [], [], t7,
      by rw [hw, hb2]; simp, Or.inl rfl, Or.inl rfl, Or.inl rfl, Or.inl rfl, Or.inl rfl, hc7⟩
  · obtain ⟨r3, h3, hc3⟩ := seq_trace_decomp (bumpPhase o env) (fun _ =>
      (deferPhase o env rv.2.2).seq fun changelog =>
      (stagePhase o env).seq fun _ =>
      (releaseSeq Target.primary o.isInteractive ⟨o.git, o.github, o.gitlab, o.npm, o.scripts⟩
        env.primarySeq rv.2.1 (isPreOf rv.2.1)).seq fun _ =>
      (distPhase o env rv.2.1 (isPreOf rv.2.1)).seq fun _ =>
      rok (⟨o.name, changelog, rv.1, rv.2.1⟩ : PipelineResult))
    have hr2 : r2 = (bumpPhase o env).trace ++ r3 := heq2.trans h3
    rcases hc3 with h | ⟨u3, hok3, heq3⟩
    · subst h
      refine ⟨(bumpPhase o env).trace, [], [], [], [], t7,
        by rw [hw, hb2, hr2]; simp, Or.inr rfl, Or.inl rfl, Or.inl rfl, Or.inl rfl,
        Or.inl rfl, hc7⟩
    · obtain ⟨r4, h4, hc4⟩ := seq_trace_decomp (deferPhase o env rv.2.2) (fun changelog =>
        (stagePhase o env).seq fun _ =>
        (releaseSeq Target.primary o.isInteractive ⟨o.git, o.github, o.gitlab, o.npm, o.scripts⟩
          env.primarySeq rv.2.1 (isPreOf rv.2.1)).seq fun _ =>
        (distPhase o env rv.2.1 (isPreOf rv.2.1)).seq fun _ =>
        rok (⟨o.name, changelog, rv.1, rv.2.1⟩ : PipelineResult))
      have hr3 : r3 = (deferPhase o env rv.2.2).trace ++ r4 := heq3.trans h4
      rcases hc4 with h | ⟨cl4, hok4, heq4⟩
      · subst h
        refine ⟨(bumpPhase o env).trace, (deferPhase o env rv.2.2).trace, [], [], [], t7,
          by rw [hw, hb2, hr2, hr3]; simp, Or.inr rfl, Or.inr ⟨rv.2.2, rfl⟩, Or.inl rfl,
          Or.inl rfl, Or.inl rfl, hc7⟩
      · obtain ⟨r5, h5, hc5⟩ := seq_trace_decomp (stagePhase o env) (fun _ =>
          (releaseSeq Target.primary o.isInteractive
            ⟨o.git, o.github, o.gitlab, o.npm, o.scripts⟩
            env.primarySeq rv.2.1 (isPreOf rv.2.1)).seq fun _ =>
          (distPhase o env rv.2.1 (isPreOf rv.2.1)).seq fun _ =>
          rok (⟨o.name, cl4, rv.1, rv.2.1⟩ : PipelineResult))
        have hr4 : r4 = (stagePhase o env).trace ++ r5 := heq4.trans h5
        rcases hc5 with h | ⟨u5, hok5, heq5⟩
        · subst h
          refine ⟨(bumpPhase o env).trace, (deferPhase o env rv.2.2).trace,
            (stagePhase o env).trace, [], [], t7,
            by rw [hw, hb2, hr2, hr3, hr4]; simp, Or.inr rfl, Or.inr ⟨rv.2.2, rfl⟩,
            Or.inr rfl, Or.inl rfl, Or.inl rfl, hc7⟩
        · obtain ⟨r6, h6, hc6⟩ := seq_trace_decomp (releaseSeq Target.primary o.isInteractive
            ⟨o.git, o.github, o.gitlab, o.npm, o.scripts⟩
            env.primarySeq rv.2.1 (isPreOf rv.2.1)) (fun _ =>
            (distPhase o env rv.2.1 (isPreOf rv.2.1)).seq fun _ =>
            rok (⟨o.name, cl4, rv.1, rv.2.1⟩ : PipelineResult))
          have hr5 : r5 = (releaseSeq Target.primary o.isInteractive
            ⟨o.git, o.github, o.gitlab, o.npm, o.scripts⟩
            env.primarySeq rv.2.1 (isPreOf rv.2.1)).trace ++ r6 := heq5.trans h6
          rcases hc6 with h | ⟨u6, hok6, heq6⟩
          · subst h
            refine ⟨(bumpPhase o env).trace, (deferPhase o env rv.2.2).trace,
              (stagePhase o env).trace, (releaseSeq Target.primary o.isInteractive
                ⟨o.git, o.github, o.gitlab, o.npm, o.scripts⟩
                env.primarySeq rv.2.1 (isPreOf rv.2.1)).trace, [], t7,
              by rw [hw, hb2, hr2, hr3, hr4, hr5]; simp, Or.inr rfl, Or.inr ⟨rv.2.2, rfl⟩,
              Or.inr rfl, Or.inr ⟨rv.2.1, isPreOf rv.2.1, rfl⟩, Or.inl rfl, hc7⟩
          · obtain ⟨r7, h7, hc7x⟩ := seq_trace_decomp
              (distPhase o env rv.2.1 (isPreOf rv.2.1))
              (fun _ => rok (⟨o.name, cl4, rv.1, rv.2.1⟩ : PipelineResult))
            have hr6 : r6 = (distPhase o env rv.2.1 (isPreOf rv.2.1)).trace ++ r7 :=
              heq6.trans h7
            have hr7 : r7 = [] := by
              rcases hc7x with h | ⟨u7, hok7, heq7⟩
              · exact h
              · simpa [rok] using heq7
            refine ⟨(bumpPhase o env).trace, (deferPhase o env rv.2.2).trace,
              (stagePhase o env).trace, (releaseSeq Target.primary o.isInteractive
                ⟨o.git, o.github, o.gitlab, o.npm, o.scripts⟩
                env.primarySeq rv.2.1 (isPreOf rv.2.1)).trace,
              (distPhase o env rv.2.1 (isPreOf rv.2.1)).trace, t7,
              by rw [hw, hb2, hr2, hr3, hr4, hr5, hr6, hr7]; simp, Or.inr rfl,
              Or.inr ⟨rv.2.2, rfl⟩, Or.inr rfl, Or.inr ⟨rv.2.1, isPreOf rv.2.1, rfl⟩,
              Or.inr ⟨rv.2.1, isPreOf rv.2.1, rfl⟩, hc7⟩

end Tasks

namespace Tasks

theorem allBefore_append_left {p q : Event → Bool} {l₁ l₂ : List Event}
    (h₁ : l₁.all (fun e => !q e) = true) (h₂ : allBefore p q l₂ = true) :
    allBefore p q (l₁ ++ l₂) = true := by
  induction l₁ with
  | nil => simpa using h₂
  | cons e rest ih =>
    simp only [List.all_cons, Bool.and_eq_true] at h₁
    simp only [List.cons_append]
    unfold allBefore
    rw [Bool.and_eq_true]
    refine ⟨?_, ih h₁.2⟩
    have hqe : q e = false := by simpa using h₁.1
    simp [hqe]

theorem allBefore_append_right {p q : Event → Bool} {l₂ l₃ : List Event}
    (h₂ : allBefore p q l₂ = true) (h₃ : l₃.all (fun e => !p e) = true) :
    allBefore p q (l₂ ++ l₃) = true := by
  induction l₂ with
  | nil => simpa using allBefore_of_all_not_p h₃
  | cons e rest ih =>
    unfold allBefore at h₂
    rw [Bool.and_eq_true] at h₂
    obtain ⟨hhead, htail⟩ := h₂
    simp only [List.cons_append]
    unfold allBefore
    rw [Bool.and_eq_true]
    refine ⟨?_, ih htail⟩
    by_cases hq : q e = true
    · rw [if_pos hq] at hhead
      rw [Bool.and_eq_true] at hhead
      rw [if_pos hq, Bool.and_eq_true]
      exact ⟨hhead.1, by simp [List.all_append, hhead.2, h₃]⟩
    · simp only [Bool.not_eq_true] at hq
      simp [hq]

theorem impl_resolve_mut : ∀ e, isResolveEv e = true → (!isMutationEv e) = true := by
  intro e he
  cases e <;> simp_all [isResolveEv, isMutationEv]

theorem impl_bump_val : ∀ e, isBumpPhaseEv e = true → (!isValidationEv e) = true := by
  intro e he
  cases e <;> simp_all [isBumpPhaseEv, isValidationEv]

theorem impl_defer_val : ∀ e, isDeferPhaseEv e = true → (!isValidationEv e) = true := by
  intro e he
  cases e <;> simp_all [isDeferPhaseEv, isValidationEv]

theorem impl_stage_val : ∀ e, isStagePhaseEv e = true → (!isValidationEv e) = true := by
  intro e he
  cases e <;> simp_all [isStagePhaseEv, isValidationEv]

theorem impl_seq_val : ∀ t e, isSeqEv t e = true → (!isValidationEv e) = true := by
  intro t e he
  cases e <;> simp_all [isSeqEv, isCoreEv, isValidationEv]

theorem impl_dist_val : ∀ e, isDistBlockEv e = true → (!isValidationEv e) = true := by
  intro e he
  cases e <;> simp_all [isDistBlockEv, isDistReleaseEv, isSeqEv, isCoreEv, isValidationEv]

end Tasks

namespace Tasks

theorem allP_mem {p : Event → Bool} {α : Type} {r : Res α} {x : Event}
    (h : AllP p r) (hx : x ∈ r.trace) : p x = true :=
  List.all_eq_true.mp h x hx

theorem impl_resolve_bumpstep : ∀ e, isResolveEv e = true → (!isBumpStepEv e) = true := by
  intro e he
  cases e <;> simp_all [isResolveEv, isBumpStepEv]

theorem impl_bump_gen : ∀ e, isBumpPhaseEv e = true → (!isGenEv e) = true := by
  intro e he
  cases e <;> simp_all [isBumpPhaseEv, isGenEv]

theorem impl_defer_bumpstep : ∀ e, isDeferPhaseEv e = true → (!isBumpStepEv e) = true := by
  intro e he
  cases e <;> simp_all [isDeferPhaseEv, isBumpStepEv]

theorem impl_stage_bumpstep : ∀ e, isStagePhaseEv e = true → (!isBumpStepEv e) = true := by
  intro e he
  cases e <;> simp_all [isStagePhaseEv, isBumpStepEv]

theorem impl_stage_gen : ∀ e, isStagePhaseEv e = true → (!isGenEv e) = true := by
  intro e he
  cases e <;> simp_all [isStagePhaseEv, isGenEv]

theorem impl_seq_bumpstep : ∀ t e, isSeqEv t e = true → (!isBumpStepEv e) = true := by
  intro t e he
  cases e <;> simp_all [isSeqEv, isCoreEv, isBumpStepEv]

theorem impl_seq_gen : ∀ t e, isSeqEv t e = true → (!isGenEv e) = true := by
  intro t e he
  cases e <;> simp_all [isSeqEv, isCoreEv, isGenEv]

theorem impl_dist_bumpstep : ∀ e, isDistBlockEv e = true → (!isBumpStepEv e) = true := by
  intro e he
  cases e <;> simp_all [isDistBlockEv, isDistReleaseEv, isSeqEv, isCoreEv, isBumpStepEv]

theorem impl_dist_gen : ∀ e, isDistBlockEv e = true → (!isGenEv e) = true := by
  intro e he
  cases e <;> simp_all [isDistBlockEv, isDistReleaseEv, isSeqEv, isCoreEv, isGenEv]

theorem impl_resolve_seqany : ∀ e, isResolveEv e = true → (!isSeqEvAny e) = true := by
  intro e he
  cases e <;> simp_all [isResolveEv, isSeqEvAny, isSeqEv, isCoreEv]

theorem impl_bump_seqany : ∀ e, isBumpPhaseEv e = true → (!isSeqEvAny e) = true := by
  intro e he
  cases e <;> simp_all [isBumpPhaseEv, isSeqEvAny, isSeqEv, isCoreEv]
  rcases he with ⟨ht, h | h⟩ <;> subst h <;> simp

theorem impl_defer_seqany : ∀ e, isDeferPhaseEv e = true → (!isSeqEvAny e) = true := by
  intro e he
  cases e <;> simp_all [isDeferPhaseEv, isSeqEvAny, isSeqEv, isCoreEv]

theorem impl_stage_setrt : ∀ e, isStagePhaseEv e = true → (!isSetRtEv e) = true := by
  intro e he
  cases e <;> simp_all [isStagePhaseEv, isSetRtEv]

theorem impl_seq_setrt : ∀ t e, isSeqEv t e = true → (!isSetRtEv e) = true := by
  intro t e he
  cases e <;> simp_all [isSeqEv, isCoreEv, isSetRtEv]

theorem impl_dist_setrt : ∀ e, isDistBlockEv e = true → (!isSetRtEv e) = true := by
  intro e he
  cases e <;> simp_all [isDistBlockEv, isDistReleaseEv, isSeqEv, isCoreEv, isSetRtEv]

theorem impl_resolve_distrel : ∀ e, isResolveEv e = true → (!isDistReleaseEv e) = true := by
  intro e he
  cases e <;> simp_all [isResolveEv, isDistReleaseEv, isSeqEv, isCoreEv]

theorem impl_bump_distrel : ∀ e, isBumpPhaseEv e = true → (!isDistReleaseEv e) = true := by
  intro e he
  cases e <;> simp_all [isBumpPhaseEv, isDistReleaseEv, isSeqEv, isCoreEv]

theorem impl_defer_distrel : ∀ e, isDeferPhaseEv e = true → (!isDistReleaseEv e) = true := by
  intro e he
  cases e <;> simp_all [isDeferPhaseEv, isDistReleaseEv, isSeqEv, isCoreEv]

theorem impl_stage_distrel : ∀ e, isStagePhaseEv e = true → (!isDistReleaseEv e) = true := by
  intro e he
  cases e <;> simp_all [isStagePhaseEv, isDistReleaseEv, isSeqEv, isCoreEv]

theorem impl_seqprimary_distrel :
    ∀ e, isSeqEv Target.primary e = true → (!isDistReleaseEv e) = true := by
  intro e he
  cases e <;> simp_all [isSeqEv, isCoreEv, isDistReleaseEv]

theorem impl_resolve_popd : ∀ e, isResolveEv e = true → (!isPopdEv e) = true := by
  intro e he
  cases e <;> simp_all [isResolveEv, isPopdEv]

theorem impl_bump_popd : ∀ e, isBumpPhaseEv e = true → (!isPopdEv e) = true := by
  intro e he
  cases e <;> simp_all [isBumpPhaseEv, isPopdEv]

theorem impl_defer_popd : ∀ e, isDeferPhaseEv e = true → (!isPopdEv e) = true := by
  intro e he
  cases e <;> simp_all [isDeferPhaseEv, isPopdEv]

theorem impl_stage_popd : ∀ e, isStagePhaseEv e = true → (!isPopdEv e) = true := by
  intro e he
  cases e <;> simp_all [isStagePhaseEv, isPopdEv]

theorem impl_seq_popd : ∀ t e, isSeqEv t e = true → (!isPopdEv e) = true := by
  intro t e he
  cases e <;> simp_all [isSeqEv, isCoreEv, isPopdEv]

theorem impl_seq_pushd : ∀ t e, isSeqEv t e = true → (!isPushdEv e) = true := by
  intro t e he
  cases e <;> simp_all [isSeqEv, isCoreEv, isPushdEv]

theorem impl_resolve_npmprim : ∀ e, isResolveEv e = true → (!isNpmPrimaryPubEv e) = true := by
  intro e he
  cases e <;> simp_all [isResolveEv, isNpmPrimaryPubEv]

theorem impl_bump_npmprim : ∀ e, isBumpPhaseEv e = true → (!isNpmPrimaryPubEv e) = true := by
  intro e he
  cases e <;> simp_all [isBumpPhaseEv, isNpmPrimaryPubEv]

theorem impl_defer_npmprim : ∀ e, isDeferPhaseEv e = true → (!isNpmPrimaryPubEv e) = true := by
  intro e he
  cases e <;> simp_all [isDeferPhaseEv, isNpmPrimaryPubEv]

theorem impl_stage_npmprim : ∀ e, isStagePhaseEv e = true → (!isNpmPrimaryPubEv e) = true := by
  intro e he
  cases e <;> simp_all [isStagePhaseEv, isNpmPrimaryPubEv]

theorem impl_dist_npmprim : ∀ e, isDistBlockEv e = true → (!isNpmPrimaryPubEv e) = true := by
  intro e he
  cases e <;> simp_all [isDistBlockEv, isDistReleaseEv, isSeqEv, isCoreEv, isNpmPrimaryPubEv]

end Tasks

open Tasks in
/-- C2: in every run, all collaborator validations (git, distribution stage
directory, GitHub/GitLab tokens, npm registry/authentication) and the version
validation precede every mutating step (bump, stage, commit, tag, push,
release, publish) in the trace; and the first violated precondition in
validation order wins: a git validation failure (e.g. a dirty working
directory) decides the run's outcome whatever else is wrong, then a GitHub
token failure, and with all collaborator validations passing an increment
that yields no version is reported as the invalid-version error at version
validation. -/
theorem runTasks_validations_first (o : Tasks.Options) (env : Tasks.Env) :
    allBefore isValidationEv isMutationEv (runTasks o env).trace = true
    ∧ (∀ e, env.gitValidate = Except.error e → (runTasks o env).result = Except.error e)
    ∧ (∀ e, env.gitValidate = Except.ok () → env.gitDistValidate = Except.ok () →
        env.ghValidate = Except.error e → (runTasks o env).result = Except.error e)
    ∧ (∀ l c, env.gitValidate = Except.ok () → env.gitDistValidate = Except.ok () →
        env.ghValidate = Except.ok () → env.glValidate = Except.ok () →
        npmValidate o.npm env.npmRegistryUp env.npmAuthed = Except.ok () →
        o.scripts.beforeStart = none → env.latestVersion = Except.ok l →
        isRecommendation o.increment = false → env.changelogGen = Except.ok c →
        o.isInteractive = false → env.bumpResult = none →
        (runTasks o env).result = Except.error ErrKind.invalidVersion) := by
  refine ⟨?_, ?_, ?_, ?_⟩
  · obtain ⟨t2, t3, t4, t5, t6, t7, htr, hc2, hc3, hc4, hc5, hc6, hc7⟩ :=
      runTasks_trace_decomp o env
    rw [htr]
    refine allBefore_append (allP_mono (allP_resolvePhase o env) impl_resolve_mut) ?_
    simp only [List.all_append, Bool.and_eq_true]
    refine ⟨?_, ?_, ?_, ?_, ?_, ?_⟩
    · rcases hc2 with rfl | rfl
      · simp
      · exact allP_mono (allP_bumpPhase o env) impl_bump_val
    · rcases hc3 with rfl | ⟨cl, rfl⟩
      · simp
      · exact allP_mono (allP_deferPhase o env cl) impl_defer_val
    · rcases hc4 with rfl | rfl
      · simp
      · exact allP_mono (allP_stagePhase o env) impl_stage_val
    · rcases hc5 with rfl | ⟨v, pre, rfl⟩
      · simp
      · exact allP_mono (allP_releaseSeq Target.primary o.isInteractive _ env.primarySeq v pre)
          (impl_seq_val Target.primary)
    · rcases hc6 with rfl | ⟨v, pre, rfl⟩
      · simp
      · exact allP_mono (allP_distPhase o env v pre) impl_dist_val
    · rcases hc7 with rfl | ⟨b, rfl⟩
      · simp
      · simp [isValidationEv]
  · intro e h
    unfold runTasks runTasksBody resolvePhase
    simp [Res.seq, call, h]
  · intro e hgit hdist hgh
    unfold runTasks runTasksBody resolvePhase
    simp [Res.seq, call, hgit, hdist, hgh]
  · intro l c hgit hdist hgh hgl hnpm hbs hlat hrec hcl hint hbr
    unfold runTasks runTasksBody resolvePhase
    simp [Res.seq, call, rok, hookStep, genChangelogStep, emit, Npm.jsTruthyS,
      hgit, hdist, hgh, hgl, hnpm, hbs, hlat, hrec, hcl, hint, hbr]

namespace Tasks

theorem resolvePhase_no_gen (o : Options) (env : Env)
    (h : isRecommendation o.increment = true) :
    AllP (fun e => !isGenEv e) (resolvePhase o env) := by
  unfold resolvePhase
  refine allP_seq (allP_call rfl) fun _ => ?_
  refine allP_seq (allP_call rfl) fun _ => ?_
  refine allP_seq (allP_call rfl) fun _ => ?_
  refine allP_seq (allP_call rfl) fun _ => ?_
  refine allP_seq (allP_call rfl) fun _ => ?_
  refine allP_seq (allP_hookStep rfl) fun _ => ?_
  refine allP_seq (allP_call rfl) fun latest => ?_
  refine allP_seq (allP_call rfl) fun v0 => ?_
  refine allP_seq ?_ fun clPre => ?_
  · have hite : (if isRecommendation o.increment then rok none
        else (genChangelogStep env).seq fun cl => rok (some cl)) =
        (rok none : Res (Option String)) := by
      simp [h]
    rw [hite]
    exact allP_rok none
  · refine allP_seq (allP_call rfl) fun version => ?_
    exact allP_rok _

end Tasks

open Tasks in
/-- C4: in every run, if the increment is recommendation-based, changelog
generation happens only after the bump step and the `afterBump` hook; if it
is not, changelog generation happens before the bump step; in both cases the
changelog is stored into the runtime options before any release-sequence
step runs, and a successful generation is immediately followed by the
runtime-options store. -/
theorem runTasks_changelog_timing (o : Tasks.Options) (env : Tasks.Env) :
    (isRecommendation o.increment = true →
      allBefore isBumpStepEv isGenEv (runTasks o env).trace = true)
    ∧ (isRecommendation o.increment = false →
      allBefore isGenEv isBumpStepEv (runTasks o env).trace = true)
    ∧ allBefore isSetRtEv isSeqEvAny (runTasks o env).trace = true
    ∧ (∀ c, env.changelogGen = Except.ok c →
        (genChangelogStep env).trace = [Event.genChangelog, Event.setRuntimeChangelog]) := by
  obtain ⟨t2, t3, t4, t5, t6, t7, htr, hc2, hc3, hc4, hc5, hc6, hc7⟩ :=
    runTasks_trace_decomp o env
  refine ⟨?_, ?_, ?_, ?_⟩
  · intro hrec
    rw [htr, ← List.append_assoc]
    refine allBefore_append ?_ ?_
    · simp only [List.all_append, Bool.and_eq_true]
      refine ⟨resolvePhase_no_gen o env hrec, ?_⟩
      rcases hc2 with rfl | rfl
      · simp
      · exact allP_mono (allP_bumpPhase o env) impl_bump_gen
    · simp only [List.all_append, Bool.and_eq_true]
      refine ⟨?_, ?_, ?_, ?_, ?_⟩
      · rcases hc3 with rfl | ⟨cl, rfl⟩
        · simp
        · exact allP_mono (allP_deferPhase o env cl) impl_defer_bumpstep
      · rcases hc4 with rfl | rfl
        · simp
        · exact allP_mono (allP_stagePhase o env) impl_stage_bumpstep
      · rcases hc5 with rfl | ⟨v, pre, rfl⟩
        · simp
        · exact allP_mono (allP_releaseSeq Target.primary o.isInteractive _ env.primarySeq v pre)
            (impl_seq_bumpstep Target.primary)
      · rcases hc6 with rfl | ⟨v, pre, rfl⟩
        · simp
        · exact allP_mono (allP_distPhase o env v pre) impl_dist_bumpstep
      · rcases hc7 with rfl | ⟨b, rfl⟩
        · simp
        · simp [isBumpStepEv]
  · intro hrec
    rw [htr]
    refine allBefore_append
      (allP_mono (allP_resolvePhase o env) impl_resolve_bumpstep) ?_
    simp only [List.all_append, Bool.and_eq_true]
    refine ⟨?_, ?_, ?_, ?_, ?_, ?_⟩
    · rcases hc2 with rfl | rfl
      · simp
      · exact allP_mono (allP_bumpPhase o env) impl_bump_gen
    · rcases hc3 with rfl | ⟨cl, rfl⟩
      · simp
      · rw [deferPhase_nonrec o env cl hrec]
        simp [rok]
    · rcases hc4 with rfl | rfl
      · simp
      · exact allP_mono (allP_stagePhase o env) impl_stage_gen
    · rcases hc5 with rfl | ⟨v, pre, rfl⟩
      · simp
      · exact allP_mono (allP_releaseSeq Target.primary o.isInteractive _ env.primarySeq v pre)
          (impl_seq_gen Target.primary)
    · rcases hc6 with rfl | ⟨v, pre, rfl⟩
      · simp
      · exact allP_mono (allP_distPhase o env v pre) impl_dist_gen
    · rcases hc7 with rfl | ⟨b, rfl⟩
      · simp
      · simp [isGenEv]
  · rw [htr, ← List.append_assoc, ← List.append_assoc]
    refine allBefore_append ?_ ?_
    · simp only [List.all_append, Bool.and_eq_true]
      refine ⟨⟨allP_mono (allP_resolvePhase o env) impl_resolve_seqany, ?_⟩, ?_⟩
      · rcases hc2 with rfl | rfl
        · simp
        · exact allP_mono (allP_bumpPhase o env) impl_bump_seqany
      · rcases hc3 with rfl | ⟨cl, rfl⟩
        · simp
        · exact allP_mono (allP_deferPhase o env cl) impl_defer_seqany
    · simp only [List.all_append, Bool.and_eq_true]
      refine ⟨?_, ?_, ?_, ?_⟩
      · rcases hc4 with rfl | rfl
        · simp
        · exact allP_mono (allP_stagePhase o env) impl_stage_setrt
      · rcases hc5 with rfl | ⟨v, pre, rfl⟩
        · simp
        · exact allP_mono (allP_releaseSeq Target.primary o.isInteractive _ env.primarySeq v pre)
            (impl_seq_setrt Target.primary)
      · rcases hc6 with rfl | ⟨v, pre, rfl⟩
        · simp
        · exact allP_mono (allP_distPhase o env v pre) impl_dist_setrt
      · rcases hc7 with rfl | ⟨b, rfl⟩
        · simp
        · simp [isSetRtEv]
  · intro c hc
    unfold genChangelogStep
    simp [Res.seq, call, emit, rok, hc]

namespace Tasks

theorem seq_trace_ok {α β : Type} {r : Res α} {f : α → Res β} {a : α}
    (h : r.result = Except.ok a) : (r.seq f).trace = r.trace ++ (f a).trace := by
  simp [Res.seq, h]

theorem runTasks_result (o : Options) (env : Env) :
    (runTasks o env).result = (runTasksBody o env).result := by
  cases hb : (runTasksBody o env).result with
  | ok x => simp [runTasks, hb]
  | error e => simp [runTasks, hb]

theorem runTasks_ok_body {o : Options} {env : Env} {r : PipelineResult}
    (h : (runTasks o env).result = Except.ok r) :
    (runTasksBody o env).result = Except.ok r := by
  rw [runTasks_result] at h
  exact h

theorem runTasks_trace_of_ok {o : Options} {env : Env} {r : PipelineResult}
    (h : (runTasks o env).result = Except.ok r) :
    (runTasks o env).trace = (runTasksBody o env).trace := by
  have hb := runTasks_ok_body h
  unfold runTasks
  rw [hb]

theorem distPhase_trace_shape (o : Options) (env : Env) (v : String) (pre : Bool)
    (hrepo : o.dist.repo.isSome = true) :
    ∃ rest, (distPhase o env v pre).trace = Event.pushd o.dist.stageDir :: rest
      ∧ rest.all (fun e => !isPushdEv e) = true := by
  unfold distPhase
  rw [if_pos hrepo]
  refine ⟨((call Event.distInit env.distInit).seq fun _ =>
      (releaseSeq Target.dist o.isInteractive
        ⟨o.dist.git, o.dist.github, o.dist.gitlab, o.dist.npm, o.dist.scripts⟩
        env.distSeq v pre).seq fun _ =>
      (emit Event.popd).seq fun _ =>
      call (Event.rmStage o.dist.stageDir) env.rmStage).trace, ?_, ?_⟩
  · simp [Res.seq, emit]
  · refine allP_seq (allP_call rfl) fun _ => ?_
    refine allP_seq (allP_mono (allP_releaseSeq Target.dist o.isInteractive _ env.distSeq v pre)
      (impl_seq_pushd Target.dist)) fun _ => ?_
    exact allP_seq (allP_emit rfl) fun _ => allP_call rfl

theorem allBefore_distPhase (o : Options) (env : Env) (v : String) (pre : Bool) :
    allBefore isPushdEv isDistReleaseEv (distPhase o env v pre).trace = true := by
  by_cases hrepo : o.dist.repo.isSome = true
  · obtain ⟨rest, htr, hall⟩ := distPhase_trace_shape o env v pre hrepo
    rw [htr]
    unfold allBefore
    rw [Bool.and_eq_true]
    refine ⟨by simp [isDistReleaseEv, isSeqEv, isCoreEv], allBefore_of_all_not_p hall⟩
  · simp only [Bool.not_eq_true] at hrepo
    unfold distPhase
    rw [if_neg (by simp [hrepo])]
    rfl

theorem distPhase_ok_trace (o : Options) (env : Env) (v : String) (pre : Bool)
    (hrepo : o.dist.repo.isSome = true)
    (hok : (distPhase o env v pre).result = Except.ok ()) :
    (distPhase o env v pre).trace =
      Event.pushd o.dist.stageDir :: Event.distInit ::
        ((releaseSeq Target.dist o.isInteractive
          ⟨o.dist.git, o.dist.github, o.dist.gitlab, o.dist.npm, o.dist.scripts⟩
          env.distSeq v pre).trace ++ [Event.popd, Event.rmStage o.dist.stageDir]) := by
  unfold distPhase at hok ⊢
  rw [if_pos hrepo] at hok ⊢
  cases hinit : env.distInit with
  | error e => simp [Res.seq, call, emit, hinit] at hok
  | ok u =>
    cases hseq : (releaseSeq Target.dist o.isInteractive
        ⟨o.dist.git, o.dist.github, o.dist.gitlab, o.dist.npm, o.dist.scripts⟩
        env.distSeq v pre).result with
    | error e => simp [Res.seq, call, emit, hinit, hseq] at hok
    | ok f => simp [Res.seq, call, emit, hinit, hseq]

theorem distPhase_fail_shape (o : Options) (env : Env) (v : String) (pre : Bool) (e : ErrKind)
    (hrepo : o.dist.repo.isSome = true) (hinit : env.distInit = Except.ok ())
    (hseq : (releaseSeq Target.dist o.isInteractive
      ⟨o.dist.git, o.dist.github, o.dist.gitlab, o.dist.npm, o.dist.scripts⟩
      env.distSeq v pre).result = Except.error e) :
    (distPhase o env v pre).trace =
      Event.pushd o.dist.stageDir :: Event.distInit ::
        (releaseSeq Target.dist o.isInteractive
          ⟨o.dist.git, o.dist.github, o.dist.gitlab, o.dist.npm, o.dist.scripts⟩
          env.distSeq v pre).trace
    ∧ (distPhase o env v pre).result = Except.error e
    ∧ Event.popd ∉ (distPhase o env v pre).trace := by
  have htr : (distPhase o env v pre).trace =
      Event.pushd o.dist.stageDir :: Event.distInit ::
        (releaseSeq Target.dist o.isInteractive
          ⟨o.dist.git, o.dist.github, o.dist.gitlab, o.dist.npm, o.dist.scripts⟩
          env.distSeq v pre).trace := by
    unfold distPhase
    rw [if_pos hrepo]
    simp [Res.seq, call, emit, hinit, hseq]
  have hres : (distPhase o env v pre).result = Except.error e := by
    unfold distPhase
    rw [if_pos hrepo]
    simp [Res.seq, call, emit, hinit, hseq]
  refine ⟨htr, hres, ?_⟩
  rw [htr]
  intro hmem
  rcases List.mem_cons.mp hmem with h | h
  · exact absurd h (by simp)
  rcases List.mem_cons.mp h with h | h
  · exact absurd h (by simp)
  have := allP_mem (allP_releaseSeq Target.dist o.isInteractive
    ⟨o.dist.git, o.dist.github, o.dist.gitlab, o.dist.npm, o.dist.scripts⟩
    env.distSeq v pre) h
  simp [isSeqEv, isCoreEv] at this

end Tasks

namespace Tasks

set_option maxHeartbeats 1000000 in
theorem runTasksBody_ok_decomp {o : Options} {env : Env} {r : PipelineResult}
    (h : (runTasksBody o env).result = Except.ok r) :
    ∃ rv, (resolvePhase o env).result = Except.ok rv
      ∧ (distPhase o env rv.2.1 (isPreOf rv.2.1)).result = Except.ok ()
      ∧ (runTasksBody o env).trace =
        (((((resolvePhase o env).trace ++ (bumpPhase o env).trace)
          ++ (deferPhase o env rv.2.2).trace)
          ++ (stagePhase o env).trace)
          ++ (releaseSeq Target.primary o.isInteractive
              ⟨o.git, o.github, o.gitlab, o.npm, o.scripts⟩
              env.primarySeq rv.2.1 (isPreOf rv.2.1)).trace)
          ++ (distPhase o env rv.2.1 (isPreOf rv.2.1)).trace := by
  refine seq_ok_elim (r := resolvePhase o env) h ?_
  intro rv hres hrest
  refine seq_ok_elim hrest ?_
  intro u2 hbump hrest2
  refine seq_ok_elim hrest2 ?_
  intro cl hdefer hrest3
  refine seq_ok_elim hrest3 ?_
  intro u4 hstage hrest4
  refine seq_ok_elim hrest4 ?_
  intro f5 hseqp hrest5
  refine seq_ok_elim hrest5 ?_
  intro u6 hdist hrest6
  refine ⟨rv, hres, ?_, ?_⟩
  · cases u6
    exact hdist
  · have e1 : (runTasksBody o env).trace = (resolvePhase o env).trace ++
        ((bumpPhase o env).seq fun _ =>
        (deferPhase o env rv.2.2).seq fun changelog =>
        (stagePhase o env).seq fun _ =>
        (releaseSeq Target.primary o.isInteractive
          ⟨o.git, o.github, o.gitlab, o.npm, o.scripts⟩
          env.primarySeq rv.2.1 (isPreOf rv.2.1)).seq fun _ =>
        (distPhase o env rv.2.1 (isPreOf rv.2.1)).seq fun _ =>
        rok (⟨o.name, changelog, rv.1, rv.2.1⟩ : PipelineResult)).trace :=
      seq_trace_ok hres
    rw [e1, seq_trace_ok hbump, seq_trace_ok hdefer, seq_trace_ok hstage,
      seq_trace_ok hseqp, seq_trace_ok hdist]
    simp [rok, List.append_assoc]

end Tasks

open Tasks in
/-- C3 (amended): in every run, the working directory is pushed into the
staging directory before any step of the distribution sub-release; on the
success path the original directory is restored (`popd`) after the whole
sub-release and before the staging directory is removed; but the restore
happens only on the success path: when the sub-release itself rejects, the
error propagates and `popd` is never performed (there is no try/finally in
`src/lib/tasks.js` lines 183-192). -/
theorem runTasks_dist_cwd (o : Tasks.Options) (env : Tasks.Env) :
    allBefore isPushdEv isDistReleaseEv (runTasks o env).trace = true
    ∧ (∀ r, (runTasks o env).result = Except.ok r → o.dist.repo.isSome = true →
        Event.popd ∈ (runTasks o env).trace
        ∧ allBefore isDistReleaseEv isPopdEv (runTasks o env).trace = true)
    ∧ (∀ v pre, o.dist.repo.isSome = true → (distPhase o env v pre).result = Except.ok () →
        (distPhase o env v pre).trace =
          Event.pushd o.dist.stageDir :: Event.distInit ::
            ((releaseSeq Target.dist o.isInteractive
              ⟨o.dist.git, o.dist.github, o.dist.gitlab, o.dist.npm, o.dist.scripts⟩
              env.distSeq v pre).trace ++ [Event.popd, Event.rmStage o.dist.stageDir]))
    ∧ (∀ v pre e, o.dist.repo.isSome = true → env.distInit = Except.ok () →
        (releaseSeq Target.dist o.isInteractive
          ⟨o.dist.git, o.dist.github, o.dist.gitlab, o.dist.npm, o.dist.scripts⟩
          env.distSeq v pre).result = Except.error e →
        (distPhase o env v pre).result = Except.error e
        ∧ Event.popd ∉ (distPhase o env v pre).trace) := by
  refine ⟨?_, ?_, ?_, ?_⟩
  · obtain ⟨t2, t3, t4, t5, t6, t7, htr, hc2, hc3, hc4, hc5, hc6, hc7⟩ :=
      runTasks_trace_decomp o env
    rw [htr]
    refine allBefore_append_left
      (allP_mono (allP_resolvePhase o env) impl_resolve_distrel) ?_
    refine allBefore_append_left ?_ ?_
    · rcases hc2 with rfl | rfl
      · simp
      · exact allP_mono (allP_bumpPhase o env) impl_bump_distrel
    refine allBefore_append_left ?_ ?_
    · rcases hc3 with rfl | ⟨cl, rfl⟩
      · simp
      · exact allP_mono (allP_deferPhase o env cl) impl_defer_distrel
    refine allBefore_append_left ?_ ?_
    · rcases hc4 with rfl | rfl
      · simp
      · exact allP_mono (allP_stagePhase o env) impl_stage_distrel
    refine allBefore_append_left ?_ ?_
    · rcases hc5 with rfl | ⟨v, pre, rfl⟩
      · simp
      · exact allP_mono (allP_releaseSeq Target.primary o.isInteractive _ env.primarySeq v pre)
          impl_seqprimary_distrel
    refine allBefore_append_right ?_ ?_
    · rcases hc6 with rfl | ⟨v, pre, rfl⟩
      · rfl
      · exact allBefore_distPhase o env v pre
    · rcases hc7 with rfl | ⟨b, rfl⟩
      · simp
      · simp [isPushdEv]
  · intro r hok hrepo
    have hbody := runTasks_ok_body hok
    obtain ⟨rv, hres, hdistok, htrb⟩ := runTasksBody_ok_decomp hbody
    have hdtr := distPhase_ok_trace o env rv.2.1 (isPreOf rv.2.1) hrepo hdistok
    have htr : (runTasks o env).trace = (runTasksBody o env).trace := runTasks_trace_of_ok hok
    constructor
    · rw [htr, htrb, hdtr]
      simp
    · rw [htr, htrb, hdtr]
      have hpre : ((((((resolvePhase o env).trace ++ (bumpPhase o env).trace)
          ++ (deferPhase o env rv.2.2).trace)
          ++ (stagePhase o env).trace)
          ++ (releaseSeq Target.primary o.isInteractive
              ⟨o.git, o.github, o.gitlab, o.npm, o.scripts⟩
              env.primarySeq rv.2.1 (isPreOf rv.2.1)).trace)).all
          (fun e => !isPopdEv e) = true := by
        simp only [List.all_append, Bool.and_eq_true]
        exact ⟨⟨⟨⟨allP_mono (allP_resolvePhase o env) impl_resolve_popd,
          allP_mono (allP_bumpPhase o env) impl_bump_popd⟩,
          allP_mono (allP_deferPhase o env rv.2.2) impl_defer_popd⟩,
          allP_mono (allP_stagePhase o env) impl_stage_popd⟩,
          allP_mono (allP_releaseSeq Target.primary o.isInteractive _ env.primarySeq
            rv.2.1 (isPreOf rv.2.1)) (impl_seq_popd Target.primary)⟩
      refine allBefore_append_left hpre ?_
      have hshape : Event.pushd o.dist.stageDir :: Event.distInit ::
          ((releaseSeq Target.dist o.isInteractive
            ⟨o.dist.git, o.dist.github, o.dist.gitlab, o.dist.npm, o.dist.scripts⟩
            env.distSeq rv.2.1 (isPreOf rv.2.1)).trace
            ++ [Event.popd, Event.rmStage o.dist.stageDir]) =
          (Event.pushd o.dist.stageDir :: Event.distInit ::
            (releaseSeq Target.dist o.isInteractive
              ⟨o.dist.git, o.dist.github, o.dist.gitlab, o.dist.npm, o.dist.scripts⟩
              env.distSeq rv.2.1 (isPreOf rv.2.1)).trace)
            ++ [Event.popd, Event.rmStage o.dist.stageDir] := by
        simp
      rw [hshape]
      refine allBefore_append ?_ ?_
      · simp only [List.all_cons, Bool.and_eq_true]
        refine ⟨by simp [isPopdEv], by simp [isPopdEv], ?_⟩
        exact allP_mono (allP_releaseSeq Target.dist o.isInteractive _ env.distSeq
          rv.2.1 (isPreOf rv.2.1)) (impl_seq_popd Target.dist)
      · simp [isDistReleaseEv, isSeqEv, isCoreEv]
  · intro v pre hrepo hok
    exact distPhase_ok_trace o env v pre hrepo hok
  · intro v pre e hrepo hinit hseq
    obtain ⟨htr, hres, hpopd⟩ := distPhase_fail_shape o env v pre e hrepo hinit hseq
    exact ⟨hres, hpopd⟩


open Tasks in
/-- C3 (counterexample): a concrete run with a distribution repository whose
sub-release fails at its git-commit step: the pipeline pushes into the
staging directory and starts the sub-release, but the working directory is
never restored — the trace contains `pushd` and the sub-release's commit
attempt but no `popd`, and the run rejects.  This refutes the claim that the
original working directory is restored on every exit path. -/
theorem runTasks_dist_cwd_counterexample :
    optsDistW.dist.repo.isSome = true
    ∧ Event.pushd ".stage" ∈ (runTasks optsDistW envDistFailW).trace
    ∧ Event.gitCommit Target.dist ∈ (runTasks optsDistW envDistFailW).trace
    ∧ Event.popd ∉ (runTasks optsDistW envDistFailW).trace
    ∧ (runTasks optsDistW envDistFailW).result = Except.error (ErrKind.other "boom") := by
  refine ⟨rfl, ?_, ?_, ?_, ?_⟩ <;> decide

open Tasks in
/-- C3 (amended, witness): on the concrete successful distribution run the
original directory is restored after the sub-release. -/
theorem runTasks_dist_cwd_witness :
    Event.popd ∈ (runTasks optsDistW envOkW).trace
    ∧ allBefore isDistReleaseEv isPopdEv (runTasks optsDistW envOkW).trace = true :=
  (runTasks_dist_cwd optsDistW envOkW).2.1
    ⟨"pkg", some "* changes", "1.0.0", "1.0.1"⟩ (by decide) rfl

open Tasks in
/-- C2 (witness): on a concrete run with a dirty working directory, a
missing GitHub token and an invalid increment all at once, the dirty working
directory error wins, and validations precede mutations in the trace. -/
theorem runTasks_validations_first_witness :
    (runTasks optsBaseW envC2W).result = Except.error ErrKind.gitCleanWorkingDir
    ∧ allBefore isValidationEv isMutationEv (runTasks optsBaseW envC2W).trace = true :=
  ⟨(runTasks_validations_first optsBaseW envC2W).2.1 ErrKind.gitCleanWorkingDir rfl,
   (runTasks_validations_first optsBaseW envC2W).1⟩

open Tasks in
/-- C4 (witness): on concrete runs, a recommendation increment defers
changelog generation until after the bump, a fixed increment generates it
before the bump, and a successful generation stores the changelog into the
runtime options right away. -/
theorem runTasks_changelog_timing_witness :
    allBefore isBumpStepEv isGenEv (runTasks optsRecW envOkW).trace = true
    ∧ allBefore isGenEv isBumpStepEv (runTasks optsBaseW envOkW).trace = true
    ∧ (genChangelogStep envOkW).trace = [Event.genChangelog, Event.setRuntimeChangelog] :=
  ⟨(runTasks_changelog_timing optsRecW envOkW).1 rfl,
   (runTasks_changelog_timing optsBaseW envOkW).2.1 rfl,
   (runTasks_changelog_timing optsBaseW envOkW).2.2.2 "* changes" rfl⟩

open Tasks in
/-- C7: the GitHub part of the release sequence.  In interactive mode it is
one combined step under the single `ghRelease` confirmation: when confirmed,
the release call runs and the assets are uploaded only when the release call
resolved truthy; declining skips both without failing.  In unattended mode,
release and asset upload are two independent toggles: with `github.assets`
disabled no upload happens even though the release step ran and succeeded,
and with `github.release` disabled the asset step can still run. -/
theorem ghStep_interactive_vs_unattended (t : Tasks.Target) (confirm : String → Bool)
    (gh : Tasks.GHOpts) (upl : Except Tasks.ErrKind Bool) :
    (∀ u, gh.release = true → confirm "ghRelease" = true →
      (ghStep t true confirm gh (Except.ok true) (Except.ok u)).trace
        = [Event.ghRelease t, Event.ghUploadAssets t]
      ∧ (ghStep t true confirm gh (Except.ok true) (Except.ok u)).result = Except.ok true)
    ∧ (gh.release = true → confirm "ghRelease" = true →
      (ghStep t true confirm gh (Except.ok false) upl).trace = [Event.ghRelease t]
      ∧ (ghStep t true confirm gh (Except.ok false) upl).result = Except.ok true)
    ∧ (∀ rel, gh.release = true → confirm "ghRelease" = false →
      (ghStep t true confirm gh rel upl).trace = []
      ∧ (ghStep t true confirm gh rel upl).result = Except.ok false)
    ∧ (∀ b, gh.release = true → gh.assets = false →
      (ghStep t false confirm gh (Except.ok b) upl).trace = [Event.ghRelease t]
      ∧ (ghStep t false confirm gh (Except.ok b) upl).result = Except.ok true)
    ∧ (∀ b u, gh.release = true → gh.assets = true →
      (ghStep t false confirm gh (Except.ok b) (Except.ok u)).trace
        = [Event.ghRelease t, Event.ghUploadAssets t])
    ∧ (∀ u, gh.release = false → gh.assets = true →
      (ghStep t false confirm gh (Except.ok true) (Except.ok u)).trace
        = [Event.ghUploadAssets t]) := by
  refine ⟨?_, ?_, ?_, ?_, ?_, ?_⟩
  · intro u hrel hconf
    constructor <;> simp [ghStep, stepRun, call, rok, Res.seq, hrel, hconf]
  · intro hrel hconf
    constructor <;> simp [ghStep, stepRun, call, rok, Res.seq, hrel, hconf]
  · intro rel hrel hconf
    constructor <;> simp [ghStep, stepRun, call, rok, Res.seq, hrel, hconf]
  · intro b hrel hassets
    constructor <;> simp [ghStep, stepRun, call, rok, Res.seq, hrel, hassets]
  · intro b u hrel hassets
    simp [ghStep, stepRun, call, rok, Res.seq, hrel, hassets]
  · intro u hrel hassets
    simp [ghStep, stepRun, call, rok, Res.seq, hrel, hassets]

open Tasks in
/-- C7 (witness): the four modes at concrete inputs. -/
theorem ghStep_interactive_vs_unattended_witness :
    (ghStep Target.primary true (fun _ => true) ⟨true, true, true⟩
      (Except.ok true) (Except.ok true)).trace
      = [Event.ghRelease Target.primary, Event.ghUploadAssets Target.primary]
    ∧ (ghStep Target.primary true (fun _ => false) ⟨true, true, true⟩
      (Except.ok true) (Except.ok true)).trace = []
    ∧ (ghStep Target.primary false (fun _ => true) ⟨true, true, false⟩
      (Except.ok true) (Except.ok true)).trace = [Event.ghRelease Target.primary]
    ∧ (ghStep Target.primary false (fun _ => true) ⟨true, true, false⟩
      (Except.ok true) (Except.ok true)).result = Except.ok true :=
  ⟨((ghStep_interactive_vs_unattended Target.primary (fun _ => true)
      ⟨true, true, true⟩ (Except.ok true)).1 true rfl rfl).1,
   ((ghStep_interactive_vs_unattended Target.primary (fun _ => false)
      ⟨true, true, true⟩ (Except.ok true)).2.2.1 (Except.ok true) rfl rfl).1,
   ((ghStep_interactive_vs_unattended Target.primary (fun _ => true)
      ⟨true, true, false⟩ (Except.ok true)).2.2.2.1 true rfl rfl).1,
   ((ghStep_interactive_vs_unattended Target.primary (fun _ => true)
      ⟨true, true, false⟩ (Except.ok true)).2.2.2.1 true rfl rfl).2⟩

open Tasks in
/-- C9: the top-level handler re-throws every error after logging: the run's
result equals the body's result (no error is swallowed, no success is
fabricated), a rejected body appends exactly one error-logging action whose
user-facing flag is the `instanceof ReleaseItError` test, a resolved body
logs nothing extra; every error class of `src/lib/errors.js` is a known
error and any unexpected collaborator error is not. -/
theorem runTasks_error_propagation (o : Tasks.Options) (env : Tasks.Env) :
    (runTasks o env).result = (runTasksBody o env).result
    ∧ (∀ e, (runTasksBody o env).result = Except.error e →
        (runTasks o env).trace
          = (runTasksBody o env).trace ++ [Event.errorLogged (isReleaseItError e)])
    ∧ (∀ r, (runTasksBody o env).result = Except.ok r →
        (runTasks o env).trace = (runTasksBody o env).trace)
    ∧ (∀ m, isReleaseItError (ErrKind.other m) = false)
    ∧ isReleaseItError ErrKind.gitCleanWorkingDir = true
    ∧ (∀ ref, isReleaseItError (ErrKind.token ref) = true)
    ∧ isReleaseItError ErrKind.invalidVersion = true
    ∧ isReleaseItError ErrKind.npmAuth = true := by
  refine ⟨runTasks_result o env, ?_, ?_, fun m => rfl, rfl, fun ref => rfl, rfl, rfl⟩
  · intro e he
    simp [runTasks, he]
  · intro r hr
    simp [runTasks, hr]

open Tasks in
/-- C9 (witness): a failing concrete run propagates its known error and ends
with the user-facing log action. -/
theorem runTasks_error_propagation_witness :
    (runTasks optsBaseW envC2W).trace
      = (runTasksBody optsBaseW envC2W).trace ++ [Event.errorLogged true] :=
  (runTasks_error_propagation optsBaseW envC2W).2.1 ErrKind.gitCleanWorkingDir (by decide)


namespace Npm

/-- Every non-private `publish` invocation makes its own shell attempt
first: the attempt list starts with the call's effective arguments and
command line, whatever happens afterwards. -/
theorem publishAux_attempts_cons (o : Options) (shell : String → Except String Unit)
    (tag version : Option String) (isPre : Bool) (otp : Option String)
    (hasCb : Bool) (otps : List String) (hpriv : o.isPrivate = false) :
    ∃ t, (publishAux o shell tag version isPre otp hasCb otps).attempts =
      (⟨tag, version, isPre, otp⟩, buildCmd o (getTag tag version isPre) otp) :: t := by
  rw [publishAux.eq_def]
  cases hs : shell (buildCmd o (getTag tag version isPre) otp) with
  | ok u =>
    exact ⟨[], by simp [hpriv, hs]⟩
  | error err =>
    by_cases hsg : otpSignature err = true
    · cases hasCb with
      | false => exact ⟨[], by simp [hpriv, hs, hsg]⟩
      | true =>
        cases otps with
        | nil => exact ⟨[], by simp [hpriv, hs, hsg]⟩
        | cons x rest =>
          exact ⟨(publishAux o shell tag version isPre (some x) true rest).attempts,
            by simp [hpriv, hs, hsg]⟩
    · simp only [Bool.not_eq_true] at hsg
      exact ⟨[], by simp [hpriv, hs, hsg]⟩

/-- The `isPublished` flag is set exactly when the publish promise resolves
after at least one shell attempt (i.e. not via the private-package skip). -/
theorem publishAux_flag_iff (otps : List String) (o : Options)
    (shell : String → Except String Unit) (tag version : Option String) (isPre : Bool)
    (otp : Option String) (hasCb : Bool) :
    (publishAux o shell tag version isPre otp hasCb otps).isPublished = true ↔
      ((publishAux o shell tag version isPre otp hasCb otps).result = Except.ok ()
        ∧ (publishAux o shell tag version isPre otp hasCb otps).attempts ≠ []) := by
  induction otps generalizing otp hasCb with
  | nil =>
    rw [publishAux.eq_def]
    by_cases hpriv : o.isPrivate = true
    · simp [hpriv]
    · simp only [Bool.not_eq_true] at hpriv
      cases hs : shell (buildCmd o (getTag tag version isPre) otp) with
      | ok u => simp [hpriv, hs]
      | error err =>
        by_cases hsg : otpSignature err = true
        · cases hasCb <;> simp [hpriv, hs, hsg]
        · simp only [Bool.not_eq_true] at hsg
          simp [hpriv, hs, hsg]
  | cons x rest ih =>
    rw [publishAux.eq_def]
    by_cases hpriv : o.isPrivate = true
    · simp [hpriv]
    · simp only [Bool.not_eq_true] at hpriv
      cases hs : shell (buildCmd o (getTag tag version isPre) otp) with
      | ok u => simp [hpriv, hs]
      | error err =>
        by_cases hsg : otpSignature err = true
        · cases hasCb with
          | false => simp [hpriv, hs, hsg]
          | true =>
            simp only [hpriv, hs, hsg, if_true, if_false, Bool.false_eq_true]
            obtain ⟨t, ht⟩ := publishAux_attempts_cons o shell tag version isPre
              (some x) true rest hpriv
            have hne : (publishAux o shell tag version isPre (some x) true rest).attempts
                ≠ [] := by
              rw [ht]
              simp
            rw [ih (some x) true]
            simp [hne]
        · simp only [Bool.not_eq_true] at hsg
          simp [hpriv, hs, hsg]

end Npm

namespace Tasks

theorem releaseSeq_no_npm_events (t : Target) (i : Bool) (so : SeqOpts) (se : SeqEnv)
    (v : String) (pre : Bool) (h : so.npm.publish = false) :
    AllP (fun e => !isNpmPubAnyEv e) (releaseSeq t i so se v pre) := by
  unfold releaseSeq coreSeq
  refine allP_seq ?_ fun f => ?_
  · refine allP_seq (allP_ite (allP_seq (allP_call rfl) fun _ => allP_rok _)
      (allP_rok _)) fun _ => ?_
    refine allP_seq (allP_stepRun (allP_call rfl)) fun _ => ?_
    refine allP_seq (allP_stepRun (allP_call rfl)) fun _ => ?_
    refine allP_seq (allP_stepRun (allP_call rfl)) fun _ => ?_
    refine allP_seq (allP_ite (allP_seq (allP_call rfl) fun _ => allP_rok _)
      (allP_rok _)) fun _ => ?_
    refine allP_seq (allP_ghStep rfl rfl) fun _ => ?_
    refine allP_seq (allP_ite (allP_seq (allP_call rfl) fun _ => allP_rok _)
      (allP_rok _)) fun _ => ?_
    refine allP_seq (allP_stepRun (allP_seq (allP_call rfl) fun _ => allP_rok _))
      fun _ => ?_
    refine allP_seq ?_ fun _ => ?_
    · rw [h, stepRun_disabled]
      exact allP_rok _
    · exact allP_seq (allP_hookStep rfl) fun _ => allP_rok _
  · refine allP_seq ?_ fun _ => allP_rok _
    unfold logUrls
    refine allP_seq (allP_ite (allP_emit rfl) (allP_rok _)) fun _ => ?_
    refine allP_seq (allP_ite (allP_emit rfl) (allP_rok _)) fun _ => ?_
    exact allP_ite (allP_emit rfl) (allP_rok _)

theorem logUrls_npm_mem (t : Target) (flags : SeqFlags) :
    Event.logNpmUrl t ∈ (logUrls t flags).trace ↔ flags.npmPublished = true := by
  rcases flags with ⟨gh, gl, np⟩
  cases gh <;> cases gl <;> cases np <;> simp [logUrls, Res.seq, emit, rok]

theorem releaseSeq_npm_url (t : Target) (i : Bool) (so : SeqOpts) (se : SeqEnv)
    (v : String) (pre : Bool)
    (hmem : Event.logNpmUrl t ∈ (releaseSeq t i so se v pre).trace) :
    ∃ flags, (coreSeq t i so se v pre).result = Except.ok flags
      ∧ flags.npmPublished = true := by
  unfold releaseSeq at hmem
  rcases mem_seq hmem with h | ⟨f, hok, h2⟩
  · have := allP_mem (allP_coreSeq t i so se v pre) h
    cases t <;> simp [isCoreEv] at this
  · rcases mem_seq h2 with h3 | ⟨u, hu, h4⟩
    · exact ⟨f, hok, (logUrls_npm_mem t f).mp h3⟩
    · simp [rok] at h4

theorem coreSeq_flag_disabled (t : Target) (i : Bool) (so : SeqOpts) (se : SeqEnv)
    (v : String) (pre : Bool) (flags : SeqFlags) (h : so.npm.publish = false)
    (hok : (coreSeq t i so se v pre).result = Except.ok flags) :
    flags.npmPublished = false := by
  unfold coreSeq at hok
  refine seq_ok_elim (r := if so.git.commit then
    (call (Event.gitStatus t) se.gitStatus).seq (fun _ => rok ()) else rok ()) hok ?_
  intro a1 h1 hok1
  refine seq_ok_elim hok1 ?_
  intro a2 h2 hok2
  refine seq_ok_elim hok2 ?_
  intro a3 h3 hok3
  refine seq_ok_elim hok3 ?_
  intro a4 h4 hok4
  refine seq_ok_elim hok4 ?_
  intro a5 h5 hok5
  refine seq_ok_elim hok5 ?_
  intro ghR h6 hok6
  refine seq_ok_elim hok6 ?_
  intro a7 h7 hok7
  refine seq_ok_elim hok7 ?_
  intro glR h8 hok8
  refine seq_ok_elim hok8 ?_
  intro npmR h9 hok9
  refine seq_ok_elim hok9 ?_
  intro a10 h10 hok10
  rw [h, stepRun_disabled] at h9
  simp only [rok] at h9 hok10
  have hnp : npmR = false := by
    simpa using h9.symm
  have hfl : flags = ⟨ghR, glR, npmR⟩ := by
    simpa using hok10.symm
  rw [hfl, hnp]

end Tasks

namespace Tasks

theorem impl_npmany_npmprim :
    ∀ e, (!isNpmPubAnyEv e) = true → (!isNpmPrimaryPubEv e) = true := by
  intro e he
  cases e <;> simp_all [isNpmPubAnyEv, isNpmPrimaryPubEv]

theorem runTasks_no_primary_publish (o : Options) (env : Env)
    (h : o.npm.publish = false) :
    (runTasks o env).trace.all (fun e => !isNpmPrimaryPubEv e) = true := by
  obtain ⟨t2, t3, t4, t5, t6, t7, htr, hc2, hc3, hc4, hc5, hc6, hc7⟩ :=
    runTasks_trace_decomp o env
  rw [htr]
  simp only [List.all_append, Bool.and_eq_true]
  refine ⟨allP_mono (allP_resolvePhase o env) impl_resolve_npmprim, ?_, ?_, ?_, ?_, ?_, ?_⟩
  · rcases hc2 with rfl | rfl
    · simp
    · exact allP_mono (allP_bumpPhase o env) impl_bump_npmprim
  · rcases hc3 with rfl | ⟨cl, rfl⟩
    · simp
    · exact allP_mono (allP_deferPhase o env cl) impl_defer_npmprim
  · rcases hc4 with rfl | rfl
    · simp
    · exact allP_mono (allP_stagePhase o env) impl_stage_npmprim
  · rcases hc5 with rfl | ⟨v, pre, rfl⟩
    · simp
    · exact allP_mono
        (releaseSeq_no_npm_events Target.primary o.isInteractive _ env.primarySeq v pre h)
        impl_npmany_npmprim
  · rcases hc6 with rfl | ⟨v, pre, rfl⟩
    · simp
    · exact allP_mono (allP_distPhase o env v pre) impl_dist_npmprim
  · rcases hc7 with rfl | ⟨b, rfl⟩
    · simp
    · simp [isNpmPrimaryPubEv]

end Tasks


open Tasks in
/-- C8: the npm client's `isPublished` flag is true exactly when the publish
shell command chain resolved after at least one attempt (so a private-package
skip or a failed publish leaves it unset); with `npm.publish` disabled, the
primary publish client is never invoked anywhere in the run and the
sequence's published flag stays false; and the package-URL log line is
emitted exactly when the flag is set — within the release sequence it can
only come from the wrap-up step, which requires a resolved sequence whose
published flag is true. -/
theorem npm_isPublished_discipline :
    (∀ (o : Npm.Options) (shell : String → Except String Unit)
        (tag version : Option String) (isPre : Bool) (otp : Option String)
        (hasCb : Bool) (otps : List String),
      (Npm.publishAux o shell tag version isPre otp hasCb otps).isPublished = true ↔
        ((Npm.publishAux o shell tag version isPre otp hasCb otps).result = Except.ok ()
          ∧ (Npm.publishAux o shell tag version isPre otp hasCb otps).attempts ≠ []))
    ∧ (∀ (o : Tasks.Options) (env : Tasks.Env), o.npm.publish = false →
        (runTasks o env).trace.all (fun e => !isNpmPrimaryPubEv e) = true)
    ∧ (∀ (t : Target) (i : Bool) (so : SeqOpts) (se : SeqEnv) (v : String) (pre : Bool)
        (flags : SeqFlags), so.npm.publish = false →
        (coreSeq t i so se v pre).result = Except.ok flags → flags.npmPublished = false)
    ∧ (∀ (t : Target) (i : Bool) (so : SeqOpts) (se : SeqEnv) (v : String) (pre : Bool),
        Event.logNpmUrl t ∈ (releaseSeq t i so se v pre).trace →
        ∃ flags, (coreSeq t i so se v pre).result = Except.ok flags
          ∧ flags.npmPublished = true)
    ∧ (∀ (t : Target) (flags : SeqFlags),
        Event.logNpmUrl t ∈ (logUrls t flags).trace ↔ flags.npmPublished = true) :=
  ⟨fun o shell tag version isPre otp hasCb otps =>
      Npm.publishAux_flag_iff otps o shell tag version isPre otp hasCb,
   fun o env h => runTasks_no_primary_publish o env h,
   fun t i so se v pre flags h hok => coreSeq_flag_disabled t i so se v pre flags h hok,
   fun t i so se v pre hmem => releaseSeq_npm_url t i so se v pre hmem,
   fun t flags => logUrls_npm_mem t flags⟩

open Tasks in
/-- C8 (witness): with publishing disabled, a concrete full run performs no
primary publish invocation and its sequence flag stays false; a concrete
sequence that did publish emits the package-URL line only with the flag
set. -/
theorem npm_isPublished_discipline_witness :
    (runTasks optsNoPubW envOkW).trace.all (fun e => !isNpmPrimaryPubEv e) = true
    ∧ (⟨true, false, false⟩ : SeqFlags).npmPublished = false
    ∧ (∃ flags, (coreSeq Target.primary false soPubW seqEnvOkW "1.0.1" false).result
        = Except.ok flags ∧ flags.npmPublished = true) :=
  ⟨npm_isPublished_discipline.2.1 optsNoPubW envOkW rfl,
   npm_isPublished_discipline.2.2.1 Target.primary false soNoPubW seqEnvOkW "1.0.1" false
     ⟨true, false, false⟩ rfl (by decide),
   npm_isPublished_discipline.2.2.2.1 Target.primary false soPubW seqEnvOkW "1.0.1" false
     (by decide)⟩

open Npm in
/-- C5: publishing a package whose options mark it private is skipped with a
warning and resolves successfully — no shell attempt is made, no error is
thrown, and the `isPublished` flag stays unset. -/
theorem publish_private_skip (o : Npm.Options) (shell : String → Except String Unit)
    (tag version otp : Option String) (isPre : Bool) (cb : Option (List String))
    (h : o.isPrivate = true) :
    (publish o shell tag version isPre otp cb).attempts = []
    ∧ (publish o shell tag version isPre otp cb).result = Except.ok ()
    ∧ (publish o shell tag version isPre otp cb).warnings
        = ["Skip publish: package is private."]
    ∧ (publish o shell tag version isPre otp cb).isPublished = false := by
  unfold publish
  rw [publishAux.eq_def]
  simp [h]

open Npm in
/-- C5 (witness): the private-package skip at a concrete input. -/
theorem publish_private_skip_witness :
    (publish npmPrivW (fun _ => Except.ok ()) none none false none none).attempts = []
    ∧ (publish npmPrivW (fun _ => Except.ok ()) none none false none none).result
        = Except.ok ()
    ∧ (publish npmPrivW (fun _ => Except.ok ()) none none false none none).warnings
        = ["Skip publish: package is private."]
    ∧ (publish npmPrivW (fun _ => Except.ok ()) none none false none none).isPublished
        = false :=
  publish_private_skip npmPrivW (fun _ => Except.ok ()) none none none false none rfl

open Npm in
/-- C6: the effective dist-tag is the explicitly supplied tag (defaulting to
`latest`) unless the release is a pre-release, in which case it is the first
prerelease identifier segment of the version — e.g. `alpha` for version
`1.1.0-alpha.0`. -/
theorem getTag_effective_dist_tag :
    (∀ (tag version : Option String), getTag tag version false = tag.getD DEFAULT_TAG)
    ∧ (∀ (tag : Option String) (v c : String) (cs : List String),
        jsTruthyS (some v) = true → semverPrerelease v = some (c :: cs) →
        getTag tag (some v) true = c)
    ∧ getTag none (some "1.1.0-alpha.0") true = "alpha"
    ∧ getTag (some "next") (some "1.1.0-alpha.0") false = "next" := by
  refine ⟨?_, ?_, by decide, by decide⟩
  · intro tag version
    cases tag <;> cases version <;> simp [getTag, DEFAULT_TAG, jsTruthyS]
  · intro tag v c cs htr hpre
    cases tag <;> simp [getTag, htr, hpre]

open Npm in
/-- C6 (witness): the prerelease segment is selected at a concrete
pre-release version even when an explicit tag was supplied. -/
theorem getTag_effective_dist_tag_witness :
    getTag (some "next") (some "2.0.0-beta.1") true = "beta" :=
  getTag_effective_dist_tag.2.1 (some "next") "2.0.0-beta.1" "beta" ["1"]
    (by decide) (by decide)

open Npm in
/-- C10: a publish invocation with `isPreRelease` true but no usable
prerelease segment does not fail: with no version at all, or with a version
whose prerelease extraction yields nothing, the dist-tag falls back to the
explicitly supplied tag, or to `latest` when none was supplied. -/
theorem getTag_prerelease_fallback :
    (∀ tag : Option String, getTag tag none true = tag.getD DEFAULT_TAG)
    ∧ (∀ (tag : Option String) (v : String), semverPrerelease v = none →
        getTag tag (some v) true = tag.getD DEFAULT_TAG)
    ∧ getTag none none true = "latest"
    ∧ getTag (some "next") (some "1.2.3") true = "next"
    ∧ getTag none (some "1.2.3") true = "latest" := by
  refine ⟨?_, ?_, by decide, by decide, by decide⟩
  · intro tag
    cases tag <;> simp [getTag, DEFAULT_TAG, jsTruthyS]
  · intro tag v h
    by_cases htr : jsTruthyS (some v) = true
    · cases tag <;> simp [getTag, htr, h, DEFAULT_TAG]
    · simp only [Bool.not_eq_true] at htr
      cases tag <;> simp [getTag, htr, DEFAULT_TAG]

open Npm in
/-- C10 (witness): the fallback at a concrete version without a prerelease
segment. -/
theorem getTag_prerelease_fallback_witness :
    getTag (some "rc") (some "3.4.5") true = (some "rc").getD DEFAULT_TAG :=
  getTag_prerelease_fallback.2.1 (some "rc") "3.4.5" (by decide)


open Npm in
/-- C1: when the publish shell command fails with an error matching the
one-time-password signature and an interactive OTP callback was supplied,
exactly one further publish attempt is made with the fresh OTP obtained from
the callback and the same tag, version and pre-release flag, and the
invocation succeeds when that retried attempt succeeds; without a callback,
the original error propagates unchanged after the single attempt. -/
theorem publish_otp_retry (o : Npm.Options) (shell : String → Except String Unit)
    (tag version otp : Option String) (isPre : Bool) (e : String)
    (hpriv : o.isPrivate = false)
    (hfail : shell (buildCmd o (getTag (jsDefault tag o.tag) version isPre)
      (jsDefault otp o.otp)) = Except.error e)
    (hsig : otpSignature e = true) :
    (∀ newOtp rest, ∃ t,
      (publish o shell tag version isPre otp (some (newOtp :: rest))).attempts =
        (⟨jsDefault tag o.tag, version, isPre, jsDefault otp o.otp⟩,
          buildCmd o (getTag (jsDefault tag o.tag) version isPre) (jsDefault otp o.otp)) ::
        (⟨jsDefault tag o.tag, version, isPre, some newOtp⟩,
          buildCmd o (getTag (jsDefault tag o.tag) version isPre) (some newOtp)) :: t)
    ∧ (∀ newOtp rest,
        shell (buildCmd o (getTag (jsDefault tag o.tag) version isPre) (some newOtp))
          = Except.ok () →
        (publish o shell tag version isPre otp (some (newOtp :: rest))).result
          = Except.ok ()
        ∧ (publish o shell tag version isPre otp (some (newOtp :: rest))).isPublished
          = true
        ∧ (publish o shell tag version isPre otp (some (newOtp :: rest))).attempts.length
          = 2)
    ∧ ((publish o shell tag version isPre otp none).result = Except.error e
        ∧ (publish o shell tag version isPre otp none).attempts.length = 1) := by
  refine ⟨?_, ?_, ?_⟩
  · intro newOtp rest
    obtain ⟨t, ht⟩ := publishAux_attempts_cons o shell (jsDefault tag o.tag) version isPre
      (some newOtp) true rest hpriv
    refine ⟨t, ?_⟩
    unfold publish
    rw [publishAux.eq_def]
    simp [hpriv, hfail, hsig, ht]
  · intro newOtp rest h2
    have hinner : publishAux o shell (jsDefault tag o.tag) version isPre (some newOtp)
        true rest =
        { attempts := [(⟨jsDefault tag o.tag, version, isPre, some newOtp⟩,
            buildCmd o (getTag (jsDefault tag o.tag) version isPre) (some newOtp))],
          warnings := [], isPublished := true, result := Except.ok () } := by
      rw [publishAux.eq_def]
      simp [hpriv, h2]
    unfold publish
    rw [publishAux.eq_def]
    simp [hpriv, hfail, hsig, hinner]
  · unfold publish
    rw [publishAux.eq_def]
    simp [hpriv, hfail, hsig]

open Npm in
/-- C1 (witness): a concrete publish whose first attempt is rejected with an
OTP error succeeds on the single retry with the freshly supplied OTP, and
without a callback the same first failure propagates. -/
theorem publish_otp_retry_witness :
    (publish npmOnW shellOtpW none none false none (some ["123456"])).result
      = Except.ok ()
    ∧ (publish npmOnW shellOtpW none none false none (some ["123456"])).attempts.length
      = 2
    ∧ (publish npmOnW shellOtpW none none false none none).result
      = Except.error "one-time password required" := by
  have h := publish_otp_retry npmOnW shellOtpW none none none false
    "one-time password required" rfl (by decide) (by decide)
  exact ⟨(h.2.1 "123456" [] (by decide)).1, (h.2.1 "123456" [] (by decide)).2.2,
    h.2.2.1⟩
